import Mathlib

/-!
Verification development for the bucket-to-Postgres loader
(`updated_code.py` and `final_code.py`).  Python strings are modelled as
`List Char`; blob listings, grouping structures and relational state are
modelled as insertion-ordered association lists, matching Python `dict`
semantics.
-/

namespace GsPg

abbrev Name := List Char

/-- Python `str.split(sep)` for a one-character separator:
`"".split('/') = [""]`, `"a/".split('/') = ["a", ""]`. -/
def splitOnChar (c : Char) : List Char → List (List Char)
  | [] => [[]]
  | x :: xs =>
    let r := splitOnChar c xs
    if x = c then [] :: r
    else
      match r with
      | [] => [[x]]
      | h :: t => (x :: h) :: t

/-- Python `str.lower()` (ASCII case mapping, which covers every
extension the code compares against). -/
def toLowerStr (s : List Char) : List Char := s.map Char.toLower

/-- Python `str.endswith(p)`. -/
def listEndsWith (p s : List Char) : Bool :=
  decide (p.length ≤ s.length) && decide (s.drop (s.length - p.length) = p)

example : splitOnChar '/' "x/a/b".data = ["x".data, "a".data, "b".data] := by decide
example : listEndsWith ".csv".data "x/a/b/c/d.csv".data = true := by decide
example : listEndsWith ".csv".data "x/a/b/c/d.CSV".data = false := by decide
example : toLowerStr "PNG".data = "png".data := by decide

/-- Lookup in an insertion-ordered association list (first match wins,
as in a Python `dict`). -/
def lookupA {α β : Type} [DecidableEq α] (k : α) : List (α × β) → Option β
  | [] => none
  | (k', v) :: rest => if k = k' then some v else lookupA k rest

/-- Python `d.setdefault(k, d0)` followed by an update `f` of the entry:
modifies the entry for `k` in place if present, otherwise appends a fresh
entry `(k, f d0)` at the end (Python dicts preserve insertion order). -/
def updOrApp {α β : Type} [DecidableEq α] (k : α) (f : β → β) (d0 : β) :
    List (α × β) → List (α × β)
  | [] => [(k, f d0)]
  | (k', v) :: rest =>
    if k = k' then (k', f v) :: rest else (k', v) :: updOrApp k f d0 rest

/-- Python `structure.setdefault(k, []).append(v)`. -/
def insApp {α β : Type} [DecidableEq α] (k : α) (v : β)
    (l : List (α × List β)) : List (α × List β) :=
  updOrApp k (fun vs => vs ++ [v]) [] l

/-- First index of `a` in `l` (length of `l` if absent); Python
`list.index` / pandas column lookup. -/
def indexOfL {α : Type} [DecidableEq α] (a : α) : List α → Nat
  | [] => 0
  | x :: xs => if x = a then 0 else indexOfL a xs + 1

/-! ## Discovery (`list_files_in_bucket_structure`) -/

/-- A storage object as the code sees it: `blob.name` and
`blob.public_url` (the URL is opaque to the discovery logic). -/
structure Blob where
  name : Name
  url : Name
deriving DecidableEq, Repr

/-- The fixed image-extension allow-list from `updated_code.py` line 46. -/
def imageExts : List Name :=
  ["jpeg".data, "jpg".data, "png".data, "gif".data, "bmp".data,
   "tiff".data, "webp".data, "svg".data, "heic".data]

/-- `blob.name.split('.')[-1].lower() in [...]` from `updated_code.py`
line 46: the segment after the last dot, lowercased, against the
allow-list. -/
def isImageExt (name : Name) : Bool :=
  imageExts.contains (toLowerStr ((splitOnChar '.' name).getLastD []))

/-- `blob.name.endswith('.csv')` (both variants use this test). -/
def isCsvName (name : Name) : Bool :=
  listEndsWith ".csv".data name

/-- Negation of the skip condition at `updated_code.py` line 46: kept
iff the path has at least 5 slash segments and the extension is `.csv`
or an allow-listed image extension. -/
def acceptName (name : Name) : Bool :=
  decide ((splitOnChar '/' name).length ≥ 5) && (isCsvName name || isImageExt name)

/-- Grouping key: `(db_name, schema_name, table_name)`. -/
abbrev GroupKey := Name × Name × Name

/-- The two-part structure built by `updated_code.py`'s
`list_files_in_bucket_structure`: `structure["csv"]` maps a group key to
the list of blob names, `structure["images"]` maps a group key to
`(file_name, public_url)` pairs. -/
structure UpdatedStructure where
  csv : List (GroupKey × List Name)
  images : List (GroupKey × List (Name × Name))
deriving DecidableEq, Repr

/-- One loop iteration of `updated_code.py` lines 42-54. -/
def stepUpdated (st : UpdatedStructure) (b : Blob) : UpdatedStructure :=
  if acceptName b.name then
    let parts := splitOnChar '/' b.name
    let key : GroupKey := (parts.getD 1 [], parts.getD 2 [], parts.getD 3 [])
    if isCsvName b.name then
      { st with csv := insApp key b.name st.csv }
    else
      { st with images := insApp key (parts.getD 4 [], b.url) st.images }
  else st

def updatedGo (st : UpdatedStructure) : List Blob → UpdatedStructure
  | [] => st
  | b :: bs => updatedGo (stepUpdated st b) bs

/-- `updated_code.py` lines 39-55: fold the blob listing into the
csv/images grouping structure. -/
def list_files_in_bucket_structure (blobs : List Blob) : UpdatedStructure :=
  updatedGo ⟨[], []⟩ blobs

/-- Nested structure built by `final_code.py`'s
`list_files_in_bucket_structure`: db → schema → table → list of paths. -/
abbrev NestedDbs := List (Name × List (Name × List (Name × List Name)))

/-- `structure[db][schema][table].append(name)` with `setdefault`-style
creation at every level. -/
def nestedInsert (st : NestedDbs) (d s t v : Name) : NestedDbs :=
  updOrApp d (updOrApp s (updOrApp t (fun vs => vs ++ [v]) []) []) [] st

/-- One loop iteration of `final_code.py` lines 49-62.  The guard is
`len(parts) >= 4` but the body reads `parts[4]`, so a `.csv` path with
exactly 4 slash segments raises `IndexError` (modelled as
`Except.error`). -/
def stepFinal (st : NestedDbs) (b : Blob) : Except String NestedDbs :=
  let parts := splitOnChar '/' b.name
  if ¬ isCsvName b.name then Except.ok st
  else if parts.length ≥ 4 then
    match parts.get? 4 with
    | none => Except.error "IndexError"
    | some _ =>
      Except.ok (nestedInsert st (parts.getD 1 []) (parts.getD 2 [])
        (parts.getD 3 []) b.name)
  else Except.ok st

def finalGo (st : NestedDbs) : List Blob → Except String NestedDbs
  | [] => Except.ok st
  | b :: bs =>
    match stepFinal st b with
    | Except.ok st' => finalGo st' bs
    | Except.error e => Except.error e

/-- `final_code.py` lines 46-63. -/
def final_list_files (blobs : List Blob) : Except String NestedDbs :=
  finalGo [] blobs

/-- Lookup of one table's shard list in the nested structure. -/
def nestedLookup (st : NestedDbs) (d s t : Name) : Option (List Name) :=
  (lookupA d st).bind (fun sc => (lookupA s sc).bind (fun tb => lookupA t tb))

example :
    final_list_files [⟨"x/a/b/c.csv".data, "u".data⟩] = Except.error "IndexError" := by
  rfl

example :
    list_files_in_bucket_structure [⟨"x/a/b/c.csv".data, "u".data⟩] = ⟨[], []⟩ := by
  decide

example :
    (list_files_in_bucket_structure
      [⟨"x/a/b/c/d.csv".data, "u".data⟩, ⟨"x/a/b/c/e.csv".data, "u".data⟩]).csv =
    [(("a".data, "b".data, "c".data), ["x/a/b/c/d.csv".data, "x/a/b/c/e.csv".data])] := by
  decide

example :
    (list_files_in_bucket_structure [⟨"x/a/b/c/d.PNG".data, "u".data⟩]).images =
    [(("a".data, "b".data, "c".data), [("d.PNG".data, "u".data)])] := by
  decide

/-! ## CSV fetching, decoding and merging (`read_and_merge_csv_files`)

File contents are byte lists.  `pd.read_csv(BytesIO(data), encoding=e)`
is modelled as decode-then-parse: decoding with `utf-8` is the standard
UTF-8 decoder (rejecting truncated, overlong, surrogate and
out-of-range sequences, as Python's codec does), decoding with
`ISO-8859-1` is total (every byte maps to the code point of its value),
and parsing a decoded text yields a header line plus data rows or the
`EmptyDataError` that pandas raises on input with no data. -/

def isContByte (b : Nat) : Bool := 0x80 ≤ b && b ≤ 0xBF

/-- Standard UTF-8 decoding of a byte list; `none` on any invalid
sequence (this is what makes `pd.read_csv(..., encoding='utf-8')` raise
`UnicodeDecodeError`). -/
def decodeUtf8 : List Nat → Option (List Char)
  | [] => some []
  | b :: rest =>
    if b < 0x80 then (decodeUtf8 rest).map (fun cs => Char.ofNat b :: cs)
    else if 0xC2 ≤ b && b ≤ 0xDF then
      match rest with
      | b2 :: rest2 =>
        if isContByte b2 then
          (decodeUtf8 rest2).map (fun cs =>
            Char.ofNat ((b - 0xC0) * 0x40 + (b2 - 0x80)) :: cs)
        else none
      | [] => none
    else if 0xE0 ≤ b && b ≤ 0xEF then
      match rest with
      | b2 :: b3 :: rest3 =>
        let okB2 :=
          if b = 0xE0 then 0xA0 ≤ b2 && b2 ≤ 0xBF
          else if b = 0xED then 0x80 ≤ b2 && b2 ≤ 0x9F
          else isContByte b2
        if okB2 && isContByte b3 then
          (decodeUtf8 rest3).map (fun cs =>
            Char.ofNat ((b - 0xE0) * 0x1000 + (b2 - 0x80) * 0x40 + (b3 - 0x80)) :: cs)
        else none
      | _ => none
    else if 0xF0 ≤ b && b ≤ 0xF4 then
      match rest with
      | b2 :: b3 :: b4 :: rest4 =>
        let okB2 :=
          if b = 0xF0 then 0x90 ≤ b2 && b2 ≤ 0xBF
          else if b = 0xF4 then 0x80 ≤ b2 && b2 ≤ 0x8F
          else isContByte b2
        if okB2 && isContByte b3 && isContByte b4 then
          (decodeUtf8 rest4).map (fun cs =>
            Char.ofNat ((b - 0xF0) * 0x40000 + (b2 - 0x80) * 0x1000 +
              (b3 - 0x80) * 0x40 + (b4 - 0x80)) :: cs)
        else none
      | _ => none
    else none

/-- ISO-8859-1 decoding: total, each byte is its own code point. -/
def decodeLatin1 (bytes : List Nat) : List Char :=
  bytes.map Char.ofNat

/-- A parsed dataframe: a header (ordered column names) and data rows of
cell texts. -/
structure Df where
  header : List Name
  rows : List (List Name)
deriving DecidableEq, Repr

/-- `pd.read_csv` on decoded text: blank lines are skipped, the first
remaining line is the header, the rest are data rows; no data at all
raises `EmptyDataError` (which the `except UnicodeDecodeError` clause
does not catch). -/
def parseCsv (s : List Char) : Except String Df :=
  match (splitOnChar '\n' s).filter (fun l => ¬ l.isEmpty) with
  | [] => Except.error "EmptyDataError"
  | h :: rest => Except.ok ⟨splitOnChar ',' h, rest.map (splitOnChar ',')⟩

/-- The per-shard `try utf-8 / except UnicodeDecodeError: ISO-8859-1`
block of `read_and_merge_csv_files` (`updated_code.py` lines 62-65). -/
def readCsvBytes (bytes : List Nat) : Except String Df :=
  match decodeUtf8 bytes with
  | some s => parseCsv s
  | none => parseCsv (decodeLatin1 bytes)

/-- Insert the names of `h` that are not yet in `acc` at the end
(pandas column alignment: first dataframe's columns first, new names
appended in order of appearance). -/
def unionInto (acc : List Name) (h : List Name) : List Name :=
  h.foldl (fun a c => if c ∈ a then a else a ++ [c]) acc

def joinHeaders (dfs : List Df) : List Name :=
  dfs.foldl (fun acc d => unionInto acc d.header) []

/-- Reindex one row from its shard's header to the merged header;
columns the shard lacks become empty cells (pandas fills `NaN`). -/
def reindexRow (tgt src : List Name) (row : List Name) : List Name :=
  tgt.map (fun c => row.getD (indexOfL c src) [])

/-- `pd.concat(dataframes, ignore_index=True)`: rows of every shard in
listing order, aligned to the union of the headers. -/
def pdConcat (dfs : List Df) : Df :=
  let h := joinHeaders dfs
  ⟨h, (dfs.map (fun d => d.rows.map (reindexRow h d.header))).flatten⟩

/-- The `for file_path in file_paths` loop of `read_and_merge_csv_files`:
fetch, decode and parse each shard in listing order, collecting the
dataframes; the first uncaught error aborts. -/
def readShards (fetch : Name → List Nat) : List Name → Except String (List Df)
  | [] => Except.ok []
  | p :: ps =>
    match readCsvBytes (fetch p) with
    | Except.ok df => (readShards fetch ps).map (fun dfs => df :: dfs)
    | Except.error e => Except.error e

/-- `updated_code.py` lines 57-67 / `final_code.py` lines 65-75:
download each shard (`fetch`), decode and parse it, and concatenate.
Any uncaught parse error aborts the whole merge. -/
def read_and_merge_csv_files (fetch : Name → List Nat) (paths : List Name) :
    Except String Df :=
  match readShards fetch paths with
  | Except.ok dfs => Except.ok (pdConcat dfs)
  | Except.error e => Except.error e

/-- `Except.isOk` without depending on library naming. -/
def isOkE {ε α : Type} : Except ε α → Bool
  | Except.ok _ => true
  | Except.error _ => false

example : decodeUtf8 [0x61, 0x62] = some "ab".data := by decide
example : decodeUtf8 [0x61, 0xE9] = none := by decide
example : decodeUtf8 [0xC3, 0xA9] = some [Char.ofNat 0xE9] := by decide
example : decodeLatin1 [0x61, 0xE9] = ['a', Char.ofNat 0xE9] := by decide
example :
    readCsvBytes [0x61, 0x0A, 0xE9] =
    Except.ok ⟨["a".data], [[[Char.ofNat 0xE9]]]⟩ := by rfl
example : readCsvBytes [] = Except.error "EmptyDataError" := by rfl

/-! ## Schema inference (`create_table_from_df`)

`updated_code.py` line 74 branches on the pandas dtype of each merged
column: `int64` → `INTEGER`, `float64` → `REAL`, otherwise `TEXT`
(so `uint64`, `object` and `bool` columns all fall through to `TEXT`).
The pandas dtype of a `read_csv` column is modelled after the C
parser's inference cascade over the cell representations:
1. int64 conversion — every non-missing cell an integer literal in the
   signed 64-bit range: dtype `int64`, or `float64` when missing
   values (pandas' default NA strings) are interspersed;
2. otherwise uint64 conversion — every cell a nonnegative integer
   literal below `2^64` (necessarily one above the signed range, and
   a missing value or a negative value makes this conversion conflict
   and fall through): dtype `uint64`;
3. otherwise double conversion — every cell missing or parseable as a
   double (integer of any size, float literal, `inf`/`infinity`):
   dtype `float64`;
4. otherwise: `object`. -/

/-- The default NA strings `pd.read_csv` recognizes as missing
values. -/
def naStrings : List Name :=
  ["".data, "#N/A".data, "#N/A N/A".data, "#NA".data, "-1.#IND".data,
   "-1.#QNAN".data, "-NaN".data, "-nan".data, "1.#IND".data,
   "1.#QNAN".data, "<NA>".data, "N/A".data, "NA".data, "NULL".data,
   "NaN".data, "None".data, "n/a".data, "nan".data, "null".data]

/-- A cell pandas reads as a missing value (`NaN`). -/
def isNaCell (s : Name) : Bool := decide (s ∈ naStrings)

/-- Decimal digit run to its value (`none` if empty or non-digit). -/
def decDigits (s : List Char) : Option Nat :=
  if s.isEmpty then none
  else if s.all Char.isDigit then
    some (s.foldl (fun n c => n * 10 + (c.toNat - 48)) 0)
  else none

/-- Integer literal: optional sign, then digits. -/
def intLitVal : List Char → Option Int
  | '-' :: rest => (decDigits rest).map (fun n => -(n : Int))
  | '+' :: rest => (decDigits rest).map (fun n => (n : Int))
  | s => (decDigits s).map (fun n => (n : Int))

/-- A cell whose value parses as an integer representable in 64 bits. -/
def isInt64Lit (s : List Char) : Bool :=
  match intLitVal s with
  | some v => decide (-(2 ^ 63 : Int) ≤ v ∧ v < 2 ^ 63)
  | none => false

def dropSign : List Char → List Char
  | '+' :: r => r
  | '-' :: r => r
  | s => s

/-- Unsigned float mantissa: `digits`, `digits.digits`, `.digits` or
`digits.` with at least one digit somewhere. -/
def isMantissa (s : List Char) : Bool :=
  match splitOnChar '.' s with
  | [a] => !a.isEmpty && a.all Char.isDigit
  | [a, b] => (!a.isEmpty || !b.isEmpty) && a.all Char.isDigit && b.all Char.isDigit
  | _ => false

/-- Float literal: signed mantissa with optional `e`/`E` exponent. -/
def isFloatLit (s : List Char) : Bool :=
  match splitOnChar 'e' (toLowerStr (dropSign s)) with
  | [m] => isMantissa m
  | [m, ex] =>
    isMantissa m && (let e1 := dropSign ex; !e1.isEmpty && e1.all Char.isDigit)
  | _ => false

/-- A cell the uint64 conversion accepts: a nonnegative integer
literal below `2^64`. -/
def isUint64Cell (s : List Char) : Bool :=
  match intLitVal s with
  | some v => decide (0 ≤ v ∧ v < 2 ^ 64)
  | none => false

/-- An infinity literal the C parser's double conversion accepts. -/
def isInfCell (s : List Char) : Bool :=
  decide (toLowerStr (dropSign s) = "inf".data) ||
  decide (toLowerStr (dropSign s) = "infinity".data)

/-- A cell the double conversion accepts: missing, an integer literal
of any size, a float literal, or an infinity literal. -/
def isDoubleCell (s : List Char) : Bool :=
  isNaCell s || (intLitVal s).isSome || isFloatLit s || isInfCell s

/-- Pandas column dtypes the inference cascade can produce.  The code's
dtype test maps `int64` to `INTEGER` and `float64` to `REAL`; `uint64`
and `object` both fall through to `TEXT`. -/
inductive Dtype where
  | int64
  | uint64
  | float64
  | obj
deriving DecidableEq, Repr

/-- Dtype of a `read_csv` column: the int64 → uint64 → double → object
cascade described above. -/
def colDtype (cells : List Name) : Dtype :=
  if cells.all (fun c => isNaCell c || isInt64Lit c) then
    (if cells.all isInt64Lit then Dtype.int64 else Dtype.float64)
  else if cells.all isUint64Cell then Dtype.uint64
  else if cells.all isDoubleCell then Dtype.float64
  else Dtype.obj

/-- SQL column types emitted by `create_table_from_df`. -/
inductive ColumnType where
  | integer
  | real
  | text
deriving DecidableEq, Repr

/-- `updated_code.py` line 74. -/
def sqlTypeOfDtype : Dtype → ColumnType
  | Dtype.int64 => ColumnType.integer
  | Dtype.float64 => ColumnType.real
  | Dtype.uint64 => ColumnType.text
  | Dtype.obj => ColumnType.text

def inferColType (cells : List Name) : ColumnType :=
  sqlTypeOfDtype (colDtype cells)

/-- `df[col]`: the merged column named `c`. -/
def dfColumn (df : Df) (c : Name) : List Name :=
  df.rows.map (fun r => r.getD (indexOfL c df.header) [])

/-- The `(name, type)` list `create_table_from_df` builds at
`updated_code.py` lines 72-75, one entry per column of the merged
dataframe. -/
def create_table_from_df_cols (df : Df) : List (Name × ColumnType) :=
  df.header.map (fun c => (c, inferColType (dfColumn df c)))

example : inferColType ["1".data, "2".data] = ColumnType.integer := by decide
example : inferColType ["1".data, "2.5".data] = ColumnType.real := by decide
example : inferColType ["1".data, "".data] = ColumnType.real := by decide
example : inferColType ["1".data, "NA".data] = ColumnType.real := by decide
example : inferColType ["1".data, "nan".data] = ColumnType.real := by decide
example : inferColType ["1".data, "inf".data] = ColumnType.real := by decide
example : inferColType ["1".data, "a".data] = ColumnType.text := by decide
example : inferColType ["9223372036854775807".data] = ColumnType.integer := by decide
example : inferColType ["9223372036854775808".data] = ColumnType.text := by decide
example : inferColType ["9223372036854775808".data, "NA".data] = ColumnType.real := by
  decide
example : inferColType ["9223372036854775808".data, "-1".data] = ColumnType.real := by
  decide
example : inferColType ["18446744073709551615".data] = ColumnType.text := by decide
example : inferColType ["99999999999999999999".data] = ColumnType.real := by decide

/-! ## Relational state and the DDL/DML operations

Committed server state: databases by name, each holding its created
schemas and its tables keyed by `(schema, table)`.  A table records its
column list, whether it carries the image table's `UNIQUE` constraint
on `url`, and its rows.  `ON CONFLICT DO NOTHING` skips a row exactly
when a uniqueness constraint exists and is violated; with no constraint
the clause matches nothing and every row is appended. -/

structure TableDef where
  cols : List (Name × ColumnType)
  urlUnique : Bool
  rows : List (List Name)
deriving DecidableEq, Repr

structure DBState where
  schemas : List Name
  tables : List ((Name × Name) × TableDef)
deriving DecidableEq, Repr

structure ServerState where
  dbs : List (Name × DBState)
deriving DecidableEq, Repr

/-- `CREATE SCHEMA IF NOT EXISTS "<schema>"`. -/
def createSchemaIfNotExists (d : DBState) (sc : Name) : DBState :=
  if sc ∈ d.schemas then d else { d with schemas := d.schemas ++ [sc] }

/-- `CREATE TABLE IF NOT EXISTS "<schema>"."<table>" (...)`: no error
and no change when the table already exists, whatever its shape. -/
def createTableIfNotExists (d : DBState) (sc tb : Name) (td : TableDef) : DBState :=
  match lookupA (sc, tb) d.tables with
  | some _ => d
  | none => { d with tables := d.tables ++ [((sc, tb), td)] }

/-- Update the value of an existing key, leaving absent keys alone. -/
def mapAssoc {α β : Type} [DecidableEq α] (k : α) (f : β → β) :
    List (α × β) → List (α × β)
  | [] => []
  | (k', v) :: rest =>
    if k = k' then (k', f v) :: rest else (k', v) :: mapAssoc k f rest

def updateTable (d : DBState) (sc tb : Name) (f : TableDef → TableDef) : DBState :=
  { d with tables := mapAssoc (sc, tb) f d.tables }

/-- The `url` column sits at position 1 of an inserted image row
`[file_name, url]`. -/
def urlOfRow (r : List Name) : Name := r.getD 1 []

/-- Insert one row under the `url` uniqueness constraint: skipped when a
row with the same `url` is already present, else appended. -/
def imgStep (acc : List (List Name)) (r : List Name) : List (List Name) :=
  if acc.any (fun q => decide (urlOfRow q = urlOfRow r)) then acc
  else acc ++ [r]

/-- Bulk `INSERT ... VALUES ... ON CONFLICT DO NOTHING`: with the image
table's unique `url` constraint, a row whose `url` is already present
(in the table or earlier in the batch) is skipped; with no constraint
every row is appended. -/
def conflictSkipInsert (t : TableDef) (newRows : List (List Name)) : TableDef :=
  if t.urlUnique then { t with rows := newRows.foldl imgStep t.rows }
  else { t with rows := t.rows ++ newRows }

/-- `updated_code.py` lines 69-78: create the schema and the table with
the inferred columns (committing the DDL), starting with no rows and no
uniqueness constraint. -/
def create_table_from_df (d : DBState) (df : Df) (tb sc : Name) : DBState :=
  createTableIfNotExists (createSchemaIfNotExists d sc) sc tb
    ⟨create_table_from_df_cols df, false, []⟩

/-- `updated_code.py` lines 80-87: bulk insert of the merged rows with
the (constraint-less) conflict-skip clause. -/
def insert_data_into_table (d : DBState) (rows : List (List Name)) (tb sc : Name) :
    DBState :=
  updateTable d sc tb (fun t => conflictSkipInsert t rows)

/-- The fixed image-metadata table of `updated_code.py` lines 92-98
(the generated `id` key is left implicit; `url` carries `UNIQUE`). -/
def imageTableDef : TableDef :=
  ⟨[("file_name".data, ColumnType.text), ("url".data, ColumnType.text)], true, []⟩

/-- `updated_code.py` lines 89-101: create schema and image table if
absent, then conflict-skip insert of the `(file_name, url)` pairs. -/
def insert_image_metadata (d : DBState) (sc tb : Name)
    (imageData : List (Name × Name)) : DBState :=
  let d1 := createTableIfNotExists (createSchemaIfNotExists d sc) sc tb imageTableDef
  updateTable d1 sc tb
    (fun t => conflictSkipInsert t (imageData.map (fun p => [p.1, p.2])))

/-- `updated_code.py` lines 23-37 / `final_code.py` lines 24-44: check
`pg_database` and create the database only when absent. -/
def create_database_if_not_exists (s : ServerState) (db : Name) : ServerState :=
  match lookupA db s.dbs with
  | some _ => s
  | none => { dbs := s.dbs ++ [(db, ⟨[], []⟩)] }

/-- Full provisioning for one tabular group: ensure database, then
schema and table with the inferred columns inside it. -/
def provisionTabular (s : ServerState) (db sc tb : Name) (df : Df) : ServerState :=
  let s1 := create_database_if_not_exists s db
  { dbs := mapAssoc db (fun d => create_table_from_df d df tb sc) s1.dbs }

/-- One tabular group's load as sequenced in `process_database_structure`
lines 133-134: the DDL of `create_table_from_df` is committed first
(its own `conn.commit()`), then the bulk insert runs; `insertFails`
says whether the insert raises.  Returns the committed state and the
error flag — on failure the already-committed DDL is NOT rolled back. -/
def tabularGroupLoad (d : DBState) (df : Df) (tb sc : Name) (insertFails : Bool) :
    DBState × Bool :=
  let d1 := create_table_from_df d df tb sc
  if insertFails then (d1, true)
  else (insert_data_into_table d1 df.rows tb sc, false)

/-! ## Connection lifecycle (`process_database_structure`,
`updated_code.py` lines 103-169)

Only the connection events matter for the lifecycle claim, so the model
records a trace of open/close events.  Per group (csv groups first, then
image groups — the connection handling of the two loops is identical):
if the group's database has no stored connection, the code opens an
administrative connection to the default database, runs
`create_database_if_not_exists`, closes it, opens a connection to the
target database and stores it; otherwise the stored connection is
reused.  A failure oracle `fail = some (idx, site)` makes the run raise
at the given group and site; the `finally` block then closes every
stored connection.  Note there is no `try/finally` around lines
116-117, so a failure inside `create_database_if_not_exists` skips the
`conn.close()` of the administrative connection. -/

inductive FailSite where
  | connectAdmin
  | createDb
  | connectTarget
  | body
deriving DecidableEq, Repr

inductive ConnEvent where
  | openedAdmin (id : Nat)
  | openedTarget (db : Name) (id : Nat)
  | closedConn (id : Nat)
deriving DecidableEq, Repr

structure RunState where
  conns : List (Name × Nat)
  nextId : Nat
  trace : List ConnEvent
  halted : Bool
deriving DecidableEq, Repr

def stepGroup (fail : Option (Nat × FailSite)) (idx : Nat) (db : Name)
    (s : RunState) : RunState :=
  if s.halted then s
  else
    match lookupA db s.conns with
    | some _ =>
      if fail = some (idx, FailSite.body) then { s with halted := true } else s
    | none =>
      if fail = some (idx, FailSite.connectAdmin) then { s with halted := true }
      else
        let aid := s.nextId
        let tr1 := s.trace ++ [ConnEvent.openedAdmin aid]
        if fail = some (idx, FailSite.createDb) then
          { s with trace := tr1, nextId := aid + 1, halted := true }
        else
          let tr2 := tr1 ++ [ConnEvent.closedConn aid]
          if fail = some (idx, FailSite.connectTarget) then
            { s with trace := tr2, nextId := aid + 1, halted := true }
          else
            { conns := s.conns ++ [(db, aid + 1)],
              nextId := aid + 2,
              trace := tr2 ++ [ConnEvent.openedTarget db (aid + 1)],
              halted := decide (fail = some (idx, FailSite.body)) }

def runGroupsConn (fail : Option (Nat × FailSite)) :
    Nat → RunState → List Name → RunState
  | _, s, [] => s
  | idx, s, db :: rest => runGroupsConn fail (idx + 1) (stepGroup fail idx db s) rest

/-- The database names referenced by the run, in processing order (csv
groups, then image groups). -/
def runDbKeys (st : UpdatedStructure) : List Name :=
  st.csv.map (fun kv => kv.1.1) ++ st.images.map (fun kv => kv.1.1)

def initRunState : RunState := ⟨[], 0, [], false⟩

/-- The connection-event trace of one `process_database_structure` run,
including the `finally` block's closes of every stored connection. -/
def process_database_structure_conns (st : UpdatedStructure)
    (fail : Option (Nat × FailSite)) : List ConnEvent :=
  let s := runGroupsConn fail 0 initRunState (runDbKeys st)
  s.trace ++ s.conns.map (fun kv => ConnEvent.closedConn kv.2)

def adminOpenCount (tr : List ConnEvent) (id : Nat) : Nat :=
  tr.countP (fun e =>
    match e with
    | ConnEvent.openedAdmin i => decide (i = id)
    | _ => false)

def targetOpenCount (tr : List ConnEvent) (id : Nat) : Nat :=
  tr.countP (fun e =>
    match e with
    | ConnEvent.openedTarget _ i => decide (i = id)
    | _ => false)

def closeCount (tr : List ConnEvent) (id : Nat) : Nat :=
  tr.countP (fun e =>
    match e with
    | ConnEvent.closedConn i => decide (i = id)
    | _ => false)

/-- Number of target-database connections opened for database `db`. -/
def targetOpensDb (tr : List ConnEvent) (db : Name) : Nat :=
  tr.countP (fun e =>
    match e with
    | ConnEvent.openedTarget d _ => decide (d = db)
    | _ => false)

/-- The `(db, id)` pairs of target connections opened, in order. -/
def targetOpens (tr : List ConnEvent) : List (Name × Nat) :=
  tr.filterMap (fun e =>
    match e with
    | ConnEvent.openedTarget d i => some (d, i)
    | _ => none)

/-- Every connection opened in the trace is closed exactly once. -/
def allClosedOnce (tr : List ConnEvent) : Bool :=
  tr.all (fun e =>
    match e with
    | ConnEvent.openedAdmin i => decide (closeCount tr i = 1)
    | ConnEvent.openedTarget _ i => decide (closeCount tr i = 1)
    | ConnEvent.closedConn _ => true)

def eventId : ConnEvent → Nat
  | ConnEvent.openedAdmin i => i
  | ConnEvent.openedTarget _ i => i
  | ConnEvent.closedConn i => i

/-- Invariant of the in-progress run: the stored connection map mirrors
the target-open events, one per database, with fresh distinct ids, none
of them closed yet, no id opened twice, and all ids below the
counter. -/
def ConnInv (s : RunState) : Prop :=
  targetOpens s.trace = s.conns ∧
  (s.conns.map Prod.fst).Nodup ∧
  (s.conns.map Prod.snd).Nodup ∧
  (∀ p ∈ s.conns, closeCount s.trace p.2 = 0) ∧
  (∀ id : Nat, adminOpenCount s.trace id + targetOpenCount s.trace id ≤ 1) ∧
  (∀ e ∈ s.trace, eventId e < s.nextId)

/-- Every administrative connection opened so far has been closed
exactly once (holds as long as `create_database_if_not_exists` has not
failed). -/
def AdmInv (s : RunState) : Prop :=
  ∀ id : Nat, 1 ≤ adminOpenCount s.trace id → closeCount s.trace id = 1

example :
    process_database_structure_conns
      ⟨[(("d1".data, "s".data, "t".data), ["x/d1/s/t/a.csv".data])], []⟩ none =
    [ConnEvent.openedAdmin 0, ConnEvent.closedConn 0,
     ConnEvent.openedTarget "d1".data 1, ConnEvent.closedConn 1] := by decide

example :
    process_database_structure_conns
      ⟨[(("d1".data, "s".data, "t".data), ["x/d1/s/t/a.csv".data])], []⟩
      (some (0, FailSite.createDb)) =
    [ConnEvent.openedAdmin 0] := by decide

example :
    allClosedOnce
      (process_database_structure_conns
        ⟨[(("d1".data, "s".data, "t".data), ["x/d1/s/t/a.csv".data])], []⟩
        (some (0, FailSite.createDb))) = false := by decide

/-! ## Association-list lemmas -/

theorem lookupA_append_of_none {α β : Type} [DecidableEq α] (k : α)
    (l l2 : List (α × β)) (h : lookupA k l = none) :
    lookupA k (l ++ l2) = lookupA k l2 := by
  induction l with
  | nil => simp
  | cons p rest ih =>
    obtain ⟨k', v⟩ := p
    by_cases hk : k = k'
    · simp [lookupA, hk] at h
    · simp only [lookupA, hk, if_false, List.cons_append] at h ⊢
      exact ih h

theorem lookupA_updOrApp_self {α β : Type} [DecidableEq α] (k : α)
    (f : β → β) (d0 : β) (l : List (α × β)) :
    lookupA k (updOrApp k f d0 l) = some (f ((lookupA k l).getD d0)) := by
  induction l with
  | nil => simp [updOrApp, lookupA]
  | cons p rest ih =>
    obtain ⟨k', v⟩ := p
    by_cases hk : k = k'
    · simp [updOrApp, lookupA, hk]
    · simp [updOrApp, lookupA, hk, ih]

theorem lookupA_updOrApp_ne {α β : Type} [DecidableEq α] (k k' : α)
    (f : β → β) (d0 : β) (l : List (α × β)) (h : k' ≠ k) :
    lookupA k' (updOrApp k f d0 l) = lookupA k' l := by
  induction l with
  | nil => simp [updOrApp, lookupA, h]
  | cons p rest ih =>
    obtain ⟨k'', v⟩ := p
    by_cases hk : k = k''
    · subst hk
      simp [updOrApp, lookupA, h]
    · by_cases hk' : k' = k''
      · simp [updOrApp, lookupA, hk, hk']
      · simp [updOrApp, lookupA, hk, hk', ih]

theorem lookupA_mapAssoc_self {α β : Type} [DecidableEq α] (k : α)
    (f : β → β) (l : List (α × β)) :
    lookupA k (mapAssoc k f l) = (lookupA k l).map f := by
  induction l with
  | nil => simp [mapAssoc, lookupA]
  | cons p rest ih =>
    obtain ⟨k', v⟩ := p
    by_cases hk : k = k'
    · simp [mapAssoc, lookupA, hk]
    · simp [mapAssoc, lookupA, hk, ih]

theorem mapAssoc_mapAssoc_of {α β : Type} [DecidableEq α] (k : α)
    (f : β → β) (l : List (α × β))
    (h : ∀ v, lookupA k l = some v → f (f v) = f v) :
    mapAssoc k f (mapAssoc k f l) = mapAssoc k f l := by
  induction l with
  | nil => simp [mapAssoc]
  | cons p rest ih =>
    obtain ⟨k', v⟩ := p
    by_cases hk : k = k'
    · have hv : f (f v) = f v := h v (by simp [lookupA, hk])
      simp [mapAssoc, hk, hv]
    · simp only [mapAssoc, hk, if_false]
      have := ih (fun v' hv' => h v' (by simp [lookupA, hk, hv']))
      simp [mapAssoc, hk, this]

/-! ## C1: malformed or unrecognized objects -/

theorem stepUpdated_skip (st : UpdatedStructure) (b : Blob)
    (h : acceptName b.name = false) : stepUpdated st b = st := by
  simp [stepUpdated, h]

theorem updatedGo_filter (blobs : List Blob) :
    ∀ st : UpdatedStructure,
      updatedGo st (blobs.filter (fun b => acceptName b.name)) = updatedGo st blobs := by
  induction blobs with
  | nil => intro st; rfl
  | cons b bs ih =>
    intro st
    by_cases hb : acceptName b.name = true
    · simp only [List.filter_cons, hb, if_true, updatedGo]
      exact ih (stepUpdated st b)
    · have hb' : acceptName b.name = false := by
        revert hb; cases acceptName b.name <;> simp
      simp only [List.filter_cons, hb', Bool.false_eq_true, if_false, updatedGo,
        stepUpdated_skip st b hb']
      exact ih st

/-- C1: discovery ignores every object whose path has fewer than 5
slash segments or whose extension is neither `.csv` nor an allow-listed
image extension — filtering them out of the listing leaves
`updated_code.py`'s result unchanged, and the 4-segment csv path
`"x/a/b/c.csv"` is skipped there without error; but `final_code.py`'s
`list_files_in_bucket_structure` raises `IndexError` on that same
object instead of skipping it. -/
theorem claim_C1 :
    (∀ blobs : List Blob,
      list_files_in_bucket_structure (blobs.filter (fun b => acceptName b.name)) =
        list_files_in_bucket_structure blobs) ∧
    list_files_in_bucket_structure [⟨"x/a/b/c.csv".data, "u".data⟩] =
      ⟨[], []⟩ ∧
    final_list_files [⟨"x/a/b/c.csv".data, "u".data⟩] =
      Except.error "IndexError" := by
  refine ⟨fun blobs => updatedGo_filter blobs ⟨[], []⟩, by decide, by rfl⟩

/-! ## C7: provisioning is idempotent -/

theorem schemas_createTableIfNotExists (d : DBState) (sc tb : Name)
    (td : TableDef) : (createTableIfNotExists d sc tb td).schemas = d.schemas := by
  unfold createTableIfNotExists
  cases lookupA (sc, tb) d.tables <;> rfl

theorem mem_schemas_createSchemaIfNotExists (d : DBState) (sc : Name) :
    sc ∈ (createSchemaIfNotExists d sc).schemas := by
  unfold createSchemaIfNotExists
  by_cases h : sc ∈ d.schemas
  · simp [h]
  · simp [h]

theorem createSchemaIfNotExists_of_mem (d : DBState) (sc : Name)
    (h : sc ∈ d.schemas) : createSchemaIfNotExists d sc = d := by
  simp [createSchemaIfNotExists, h]

theorem tables_createSchemaIfNotExists (d : DBState) (sc : Name) :
    (createSchemaIfNotExists d sc).tables = d.tables := by
  unfold createSchemaIfNotExists
  by_cases h : sc ∈ d.schemas <;> simp [h]

theorem lookupA_createTableIfNotExists_self (d : DBState) (sc tb : Name)
    (td : TableDef) :
    lookupA (sc, tb) (createTableIfNotExists d sc tb td).tables =
      some ((lookupA (sc, tb) d.tables).getD td) := by
  unfold createTableIfNotExists
  cases h : lookupA (sc, tb) d.tables with
  | some v => simp [h]
  | none =>
    simp only [h, Option.getD_none]
    rw [lookupA_append_of_none _ _ _ h]
    simp [lookupA]

theorem createTableIfNotExists_of_some (d : DBState) (sc tb : Name)
    (td td' : TableDef) (h : lookupA (sc, tb) d.tables = some td') :
    createTableIfNotExists d sc tb td = d := by
  simp [createTableIfNotExists, h]

theorem create_table_from_df_idem (d : DBState) (df : Df) (tb sc : Name) :
    create_table_from_df (create_table_from_df d df tb sc) df tb sc =
      create_table_from_df d df tb sc := by
  unfold create_table_from_df
  set d1 := createSchemaIfNotExists d sc with hd1
  set d2 := createTableIfNotExists d1 sc tb ⟨create_table_from_df_cols df, false, []⟩
    with hd2
  have hsc : sc ∈ d2.schemas := by
    rw [hd2, schemas_createTableIfNotExists]
    exact mem_schemas_createSchemaIfNotExists d sc
  rw [createSchemaIfNotExists_of_mem _ _ hsc]
  obtain ⟨td', htd'⟩ :
      ∃ td', lookupA (sc, tb) d2.tables = some td' := by
    rw [hd2, lookupA_createTableIfNotExists_self]
    exact ⟨_, rfl⟩
  exact createTableIfNotExists_of_some _ _ _ _ _ htd'

theorem lookupA_create_database_self (s : ServerState) (db : Name) :
    lookupA db (create_database_if_not_exists s db).dbs =
      some ((lookupA db s.dbs).getD ⟨[], []⟩) := by
  unfold create_database_if_not_exists
  cases h : lookupA db s.dbs with
  | some v => simp [h]
  | none =>
    simp only [h, Option.getD_none]
    rw [lookupA_append_of_none _ _ _ h]
    simp [lookupA]

theorem create_database_of_some (s : ServerState) (db : Name) (d : DBState)
    (h : lookupA db s.dbs = some d) : create_database_if_not_exists s db = s := by
  simp [create_database_if_not_exists, h]

/-- C7: provisioning (database, schema, table with the inferred column
list) is idempotent — running it a second time for the same group key
and dataframe is a no-op on the relational state, raising no error. -/
theorem claim_C7 (s : ServerState) (db sc tb : Name) (df : Df) :
    provisionTabular (provisionTabular s db sc tb df) db sc tb df =
      provisionTabular s db sc tb df := by
  unfold provisionTabular
  set s1 := create_database_if_not_exists s db with hs1
  set res : ServerState :=
    ⟨mapAssoc db (fun d => create_table_from_df d df tb sc) s1.dbs⟩ with hres
  have hlook : ∃ d, lookupA db res.dbs = some d := by
    rw [hres]
    show ∃ d, lookupA db (mapAssoc db _ s1.dbs) = some d
    rw [lookupA_mapAssoc_self]
    rw [hs1, lookupA_create_database_self]
    exact ⟨_, rfl⟩
  obtain ⟨d, hd⟩ := hlook
  rw [create_database_of_some _ _ _ hd]
  have h2 : mapAssoc db (fun d => create_table_from_df d df tb sc) res.dbs =
      res.dbs := by
    rw [hres]
    show mapAssoc db _ (mapAssoc db _ s1.dbs) = mapAssoc db _ s1.dbs
    exact mapAssoc_mapAssoc_of _ _ _
      (fun v _ => create_table_from_df_idem v df tb sc)
  show (⟨mapAssoc db (fun d => create_table_from_df d df tb sc) res.dbs⟩ :
    ServerState) = res
  rw [h2]

/-! ## C10: a failed tabular insert leaves the committed DDL behind -/

theorem mem_schemas_create_table_from_df (d : DBState) (df : Df) (tb sc : Name) :
    sc ∈ (create_table_from_df d df tb sc).schemas := by
  unfold create_table_from_df
  rw [schemas_createTableIfNotExists]
  exact mem_schemas_createSchemaIfNotExists d sc

/-- C10: the tabular load is not atomic for its own group — the schema
and table DDL is committed before the insert, so when the bulk insert
fails the run reports the error, but the committed state equals the
provisioned state: the schema is present, and a table that did not
exist before remains, empty, with the inferred columns. -/
theorem claim_C10 (d : DBState) (df : Df) (tb sc : Name) :
    (tabularGroupLoad d df tb sc true).2 = true ∧
    (tabularGroupLoad d df tb sc true).1 = create_table_from_df d df tb sc ∧
    sc ∈ (tabularGroupLoad d df tb sc true).1.schemas ∧
    (lookupA (sc, tb) d.tables = none →
      lookupA (sc, tb) (tabularGroupLoad d df tb sc true).1.tables =
        some ⟨create_table_from_df_cols df, false, []⟩) := by
  refine ⟨rfl, rfl, mem_schemas_create_table_from_df d df tb sc, fun h => ?_⟩
  show lookupA (sc, tb) (create_table_from_df d df tb sc).tables = _
  unfold create_table_from_df
  rw [lookupA_createTableIfNotExists_self, tables_createSchemaIfNotExists, h]
  rfl

/-! ## C4: re-run idempotence asymmetry between images and tabular data -/

theorem imgStep_any_mono (acc : List (List Name)) (r : List Name)
    (p : List Name → Bool) (h : acc.any p = true) :
    (imgStep acc r).any p = true := by
  unfold imgStep
  split
  · exact h
  · simp [h]

theorem foldl_imgStep_any_mono (batch : List (List Name))
    (p : List Name → Bool) :
    ∀ acc : List (List Name), acc.any p = true →
      (batch.foldl imgStep acc).any p = true := by
  induction batch with
  | nil => intro acc h; exact h
  | cons r rest ih =>
    intro acc h
    exact ih (imgStep acc r) (imgStep_any_mono acc r p h)

theorem foldl_imgStep_hasUrl (batch : List (List Name)) :
    ∀ acc : List (List Name), ∀ r ∈ batch,
      (batch.foldl imgStep acc).any
        (fun q => decide (urlOfRow q = urlOfRow r)) = true := by
  induction batch with
  | nil => intro acc r hr; cases hr
  | cons r' rest ih =>
    intro acc r hr
    rcases List.mem_cons.mp hr with h | h
    · subst h
      refine foldl_imgStep_any_mono rest _ (imgStep acc r) ?_
      unfold imgStep
      split
      · assumption
      · simp
    · exact ih (imgStep acc r') r h

theorem foldl_imgStep_of_allPresent (batch : List (List Name)) :
    ∀ acc : List (List Name),
      (∀ r ∈ batch, acc.any (fun q => decide (urlOfRow q = urlOfRow r)) = true) →
      batch.foldl imgStep acc = acc := by
  induction batch with
  | nil => intro acc _; rfl
  | cons r rest ih =>
    intro acc h
    have hstep : imgStep acc r = acc := by
      unfold imgStep
      simp [h r (List.mem_cons_self r rest)]
    rw [List.foldl_cons, hstep]
    exact ih acc (fun r' hr' => h r' (List.mem_cons_of_mem r hr'))

theorem urlUnique_conflictSkipInsert (t : TableDef) (b : List (List Name)) :
    (conflictSkipInsert t b).urlUnique = t.urlUnique := by
  unfold conflictSkipInsert
  split <;> rfl

theorem conflictSkipInsert_unfold_unique (t : TableDef) (batch : List (List Name))
    (hu : t.urlUnique = true) :
    conflictSkipInsert t batch = { t with rows := batch.foldl imgStep t.rows } := by
  unfold conflictSkipInsert
  simp [hu]

theorem conflictSkipInsert_idem_unique (t : TableDef) (batch : List (List Name))
    (hu : t.urlUnique = true) :
    conflictSkipInsert (conflictSkipInsert t batch) batch =
      conflictSkipInsert t batch := by
  rw [conflictSkipInsert_unfold_unique t batch hu]
  rw [conflictSkipInsert_unfold_unique { t with rows := batch.foldl imgStep t.rows }
    batch hu]
  have : TableDef.rows { t with rows := batch.foldl imgStep t.rows } =
      batch.foldl imgStep t.rows := rfl
  congr 1
  rw [this]
  exact foldl_imgStep_of_allPresent batch _
    (fun r hr => foldl_imgStep_hasUrl batch t.rows r hr)

theorem schemas_updateTable (d : DBState) (sc tb : Name) (f : TableDef → TableDef) :
    (updateTable d sc tb f).schemas = d.schemas := rfl

theorem rows_conflictSkipInsert_not_unique (t : TableDef) (b : List (List Name))
    (hu : t.urlUnique = false) :
    (conflictSkipInsert t b).rows = t.rows ++ b := by
  unfold conflictSkipInsert
  simp [hu]

/-- C4: re-running the load against unchanged data is idempotent on the
image path (the unique `url` constraint makes the conflict-skip clause
drop every row the second time, with no error) but not on the tabular
path (no uniqueness constraint, so the clause matches nothing and the
second run appends duplicate rows). -/
theorem claim_C4 :
    (∀ (d : DBState) (sc tb : Name) (batch : List (Name × Name)),
      (∀ t0, lookupA (sc, tb) d.tables = some t0 → t0.urlUnique = true) →
      insert_image_metadata (insert_image_metadata d sc tb batch) sc tb batch =
        insert_image_metadata d sc tb batch) ∧
    (∀ (d : DBState) (rows : List (List Name)) (tb sc : Name) (t : TableDef),
      lookupA (sc, tb) d.tables = some t → t.urlUnique = false → rows ≠ [] →
      insert_data_into_table (insert_data_into_table d rows tb sc) rows tb sc ≠
        insert_data_into_table d rows tb sc) := by
  constructor
  · intro d sc tb batch h1
    unfold insert_image_metadata
    set d1 := createTableIfNotExists (createSchemaIfNotExists d sc) sc tb
      imageTableDef with hd1
    set f : TableDef → TableDef :=
      fun t => conflictSkipInsert t (batch.map (fun p => [p.1, p.2])) with hf
    set r1 := updateTable d1 sc tb f with hr1
    obtain ⟨t0, ht0⟩ : ∃ t0, lookupA (sc, tb) d1.tables = some t0 := by
      rw [hd1, lookupA_createTableIfNotExists_self]
      exact ⟨_, rfl⟩
    have ht0u : t0.urlUnique = true := by
      rw [hd1, lookupA_createTableIfNotExists_self,
        tables_createSchemaIfNotExists] at ht0
      cases hl : lookupA (sc, tb) d.tables with
      | some td' =>
        rw [hl] at ht0
        have : t0 = td' := by
          simpa using ht0.symm
        rw [this]
        exact h1 td' hl
      | none =>
        rw [hl] at ht0
        have : t0 = imageTableDef := by
          simpa using ht0.symm
        rw [this]; rfl
    have hsc : sc ∈ r1.schemas := by
      rw [hr1, schemas_updateTable, hd1, schemas_createTableIfNotExists]
      exact mem_schemas_createSchemaIfNotExists d sc
    rw [createSchemaIfNotExists_of_mem _ _ hsc]
    have hlook1 : lookupA (sc, tb) r1.tables = some (f t0) := by
      rw [hr1]
      show lookupA (sc, tb) (mapAssoc (sc, tb) f d1.tables) = _
      rw [lookupA_mapAssoc_self, ht0]
      rfl
    rw [createTableIfNotExists_of_some _ _ _ _ _ hlook1]
    show updateTable r1 sc tb f = r1
    have hcomp : mapAssoc (sc, tb) f (mapAssoc (sc, tb) f d1.tables) =
        mapAssoc (sc, tb) f d1.tables := by
      refine mapAssoc_mapAssoc_of _ _ _ (fun v hv => ?_)
      have hv0 : v = t0 := by
        rw [ht0] at hv
        simpa using hv.symm
      rw [hv0, hf]
      exact conflictSkipInsert_idem_unique t0 _ ht0u
    show (⟨r1.schemas, mapAssoc (sc, tb) f r1.tables⟩ : DBState) = r1
    have : r1.tables = mapAssoc (sc, tb) f d1.tables := rfl
    rw [this, hcomp]
    rfl
  · intro d rows tb sc t hl hu hne heq
    have h1 : lookupA (sc, tb) (insert_data_into_table d rows tb sc).tables =
        some (conflictSkipInsert t rows) := by
      show lookupA (sc, tb) (mapAssoc (sc, tb) _ d.tables) = _
      rw [lookupA_mapAssoc_self, hl]
      rfl
    have h2 : lookupA (sc, tb)
        (insert_data_into_table (insert_data_into_table d rows tb sc) rows tb sc).tables =
        some (conflictSkipInsert (conflictSkipInsert t rows) rows) := by
      show lookupA (sc, tb)
        (mapAssoc (sc, tb) _ (insert_data_into_table d rows tb sc).tables) = _
      rw [lookupA_mapAssoc_self, h1]
      rfl
    rw [heq, h1] at h2
    have h3 : conflictSkipInsert t rows =
        conflictSkipInsert (conflictSkipInsert t rows) rows :=
      Option.some.inj h2
    have hu1 : (conflictSkipInsert t rows).urlUnique = false := by
      rw [urlUnique_conflictSkipInsert]
      exact hu
    have hrows := congrArg TableDef.rows h3
    rw [rows_conflictSkipInsert_not_unique t rows hu,
      rows_conflictSkipInsert_not_unique _ rows hu1,
      rows_conflictSkipInsert_not_unique t rows hu] at hrows
    have hlen := congrArg List.length hrows
    simp only [List.length_append] at hlen
    have : rows.length = 0 := by omega
    exact hne (List.eq_nil_of_length_eq_zero this)

/-- Witness for C4 at concrete states: re-inserting one image row into
the table just created for it changes nothing, while re-inserting one
tabular row into a constraint-less table duplicates it. -/
theorem claim_C4_witness :
    insert_image_metadata
      (insert_image_metadata ⟨[], []⟩ "s".data "t".data [("f".data, "u".data)])
      "s".data "t".data [("f".data, "u".data)] =
      insert_image_metadata ⟨[], []⟩ "s".data "t".data [("f".data, "u".data)] ∧
    insert_data_into_table
      (insert_data_into_table ⟨["s".data], [(("s".data, "t".data), ⟨[], false, []⟩)]⟩
        [["1".data]] "t".data "s".data)
      [["1".data]] "t".data "s".data ≠
    insert_data_into_table ⟨["s".data], [(("s".data, "t".data), ⟨[], false, []⟩)]⟩
      [["1".data]] "t".data "s".data := by
  constructor
  · exact claim_C4.1 ⟨[], []⟩ "s".data "t".data [("f".data, "u".data)]
      (fun t0 h => by simp [lookupA] at h)
  · exact claim_C4.2 _ _ _ _ ⟨[], false, []⟩ rfl rfl (by simp)

/-! ## C6: UTF-8 first, ISO-8859-1 on decode failure, fallback failure fatal -/

theorem readShards_error_of_mem (fetch : Name → List Nat) (paths : List Name)
    (p : Name) (e : String) (hp : p ∈ paths)
    (he : readCsvBytes (fetch p) = Except.error e) :
    ∃ e', readShards fetch paths = Except.error e' := by
  induction paths with
  | nil => cases hp
  | cons q rest ih =>
    cases hq : readCsvBytes (fetch q) with
    | error e2 => exact ⟨e2, by simp [readShards, hq]⟩
    | ok df =>
      rcases List.mem_cons.mp hp with h | h
      · subst h
        rw [he] at hq
        cases hq
      · obtain ⟨e', he'⟩ := ih h
        refine ⟨e', ?_⟩
        simp [readShards, hq, he', Except.map]

theorem readShards_ok_of_forall (fetch : Name → List Nat) (paths : List Name)
    (h : ∀ p ∈ paths, isOkE (readCsvBytes (fetch p)) = true) :
    ∃ dfs, readShards fetch paths = Except.ok dfs := by
  induction paths with
  | nil => exact ⟨[], rfl⟩
  | cons q rest ih =>
    obtain ⟨dfs, hdfs⟩ := ih (fun p hp => h p (List.mem_cons_of_mem q hp))
    have hq := h q (List.mem_cons_self q rest)
    cases hcq : readCsvBytes (fetch q) with
    | error e =>
      rw [hcq] at hq
      simp [isOkE] at hq
    | ok df => exact ⟨df :: dfs, by simp [readShards, hcq, hdfs, Except.map]⟩

/-- C6: every tabular shard is decoded as UTF-8 first; exactly when
UTF-8 decoding fails, the same bytes are re-read as ISO-8859-1; an
error from that fallback read propagates and aborts the whole merge;
and when every shard reads successfully (in particular shards that are
valid ISO-8859-1 but invalid UTF-8) the merge succeeds. -/
theorem claim_C6 :
    (∀ (bytes : List Nat) (s : List Char), decodeUtf8 bytes = some s →
      readCsvBytes bytes = parseCsv s) ∧
    (∀ bytes : List Nat, decodeUtf8 bytes = none →
      readCsvBytes bytes = parseCsv (decodeLatin1 bytes)) ∧
    (∀ (fetch : Name → List Nat) (paths : List Name) (p : Name) (e : String),
      p ∈ paths → readCsvBytes (fetch p) = Except.error e →
      isOkE (read_and_merge_csv_files fetch paths) = false) ∧
    (∀ (fetch : Name → List Nat) (paths : List Name),
      (∀ p ∈ paths, isOkE (readCsvBytes (fetch p)) = true) →
      isOkE (read_and_merge_csv_files fetch paths) = true) := by
  refine ⟨?_, ?_, ?_, ?_⟩
  · intro bytes s h
    unfold readCsvBytes
    rw [h]
  · intro bytes h
    unfold readCsvBytes
    rw [h]
  · intro fetch paths p e hp he
    obtain ⟨e', he'⟩ := readShards_error_of_mem fetch paths p e hp he
    unfold read_and_merge_csv_files
    rw [he']
    rfl
  · intro fetch paths h
    obtain ⟨dfs, hdfs⟩ := readShards_ok_of_forall fetch paths h
    unfold read_and_merge_csv_files
    rw [hdfs]
    rfl

/-- Witness for C6 at concrete byte files: `[97, 10, 233]` (`"a\né"` in
ISO-8859-1, invalid UTF-8) falls back to Latin-1 and still merges;
`[97, 10, 98]` decodes as UTF-8 directly; an empty file's
`EmptyDataError` aborts the merge. -/
theorem claim_C6_witness :
    readCsvBytes [97, 10, 233] = parseCsv (decodeLatin1 [97, 10, 233]) ∧
    readCsvBytes [97, 10, 98] = parseCsv "a\nb".data ∧
    isOkE (read_and_merge_csv_files (fun _ => [97, 10, 233]) ["p".data]) =
      true ∧
    isOkE (read_and_merge_csv_files (fun _ => []) ["q".data]) = false := by
  refine ⟨?_, ?_, ?_, ?_⟩
  · exact claim_C6.2.1 [97, 10, 233] (by rfl)
  · exact claim_C6.1 [97, 10, 98] "a\nb".data (by decide)
  · exact claim_C6.2.2.2 (fun _ => [97, 10, 233]) _ (fun p _ => by rfl)
  · exact claim_C6.2.2.1 (fun _ => []) ["q".data] "q".data "EmptyDataError"
      (by simp) (by rfl)

/-! ## C3: column type inference over the merged column -/

theorem isDoubleCell_of_isNaCell (s : Name) (h : isNaCell s = true) :
    isDoubleCell s = true := by
  simp [isDoubleCell, h]

theorem intLitVal_isSome_of_isInt64Lit (s : Name) (h : isInt64Lit s = true) :
    (intLitVal s).isSome = true := by
  unfold isInt64Lit at h
  cases hv : intLitVal s with
  | none =>
    rw [hv] at h
    cases h
  | some v => rfl

theorem intLitVal_isSome_of_isUint64Cell (s : Name) (h : isUint64Cell s = true) :
    (intLitVal s).isSome = true := by
  unfold isUint64Cell at h
  cases hv : intLitVal s with
  | none =>
    rw [hv] at h
    cases h
  | some v => rfl

theorem isDoubleCell_of_isInt64Lit (s : Name) (h : isInt64Lit s = true) :
    isDoubleCell s = true := by
  simp [isDoubleCell, intLitVal_isSome_of_isInt64Lit s h]

theorem isDoubleCell_of_isUint64Cell (s : Name) (h : isUint64Cell s = true) :
    isDoubleCell s = true := by
  simp [isDoubleCell, intLitVal_isSome_of_isUint64Cell s h]

theorem not_isUint64Cell_of_isNaCell (s : Name) (h : isNaCell s = true) :
    isUint64Cell s = false := by
  have hmem : s ∈ naStrings := by
    simpa [isNaCell] using h
  have hall : ∀ c ∈ naStrings, isUint64Cell c = false := by decide
  exact hall s hmem

/-- C3 (amended): the inferred type follows pandas' int64 → uint64 →
double inference cascade over the fully merged column: a column of
signed-64-bit integer literals is `INTEGER`; integer literals with
missing values interspersed, or any all-double column that forms
neither an int64 nor a uint64 column, is `REAL`; a uint64 column (all
nonnegative integer literals below `2^64`, not all in the signed
range) is `TEXT`, as is any column containing a cell that is neither
missing nor numeric; one such shard cell forces the whole merged
column to `TEXT`; and `create_table_from_df` computes the
classification once per column of the merged dataframe. -/
theorem claim_C3 :
    (∀ cells : List Name, cells.all isInt64Lit = true →
      inferColType cells = ColumnType.integer) ∧
    (∀ cells : List Name,
      cells.all (fun c => isNaCell c || isInt64Lit c) = true →
      cells.all isInt64Lit = false →
      inferColType cells = ColumnType.real) ∧
    (∀ cells : List Name, cells.all isDoubleCell = true →
      cells.all (fun c => isNaCell c || isInt64Lit c) = false →
      cells.all isUint64Cell = false →
      inferColType cells = ColumnType.real) ∧
    (∀ cells : List Name, cells.all isUint64Cell = true →
      cells.all isInt64Lit = false →
      inferColType cells = ColumnType.text) ∧
    (∀ cells : List Name, cells.all isDoubleCell = false →
      inferColType cells = ColumnType.text) ∧
    (∀ (shardCols : List (List Name)) (s : List Name), s ∈ shardCols →
      (∃ v ∈ s, isDoubleCell v = false) →
      inferColType shardCols.flatten = ColumnType.text) ∧
    (∀ df : Df, create_table_from_df_cols df =
      df.header.map (fun c => (c, inferColType (dfColumn df c)))) := by
  have h5 : ∀ cells : List Name, cells.all isDoubleCell = false →
      inferColType cells = ColumnType.text := by
    intro cells hnd
    have h1 : cells.all (fun c => isNaCell c || isInt64Lit c) = false := by
      cases hb : cells.all (fun c => isNaCell c || isInt64Lit c) with
      | false => rfl
      | true =>
        have : cells.all isDoubleCell = true :=
          List.all_eq_true.mpr (fun v hv => by
            have hor := List.all_eq_true.mp hb v hv
            cases hna : isNaCell v with
            | true => exact isDoubleCell_of_isNaCell v hna
            | false =>
              rw [hna, Bool.false_or] at hor
              exact isDoubleCell_of_isInt64Lit v hor)
        rw [this] at hnd
        cases hnd
    have h2 : cells.all isUint64Cell = false := by
      cases hb : cells.all isUint64Cell with
      | false => rfl
      | true =>
        have : cells.all isDoubleCell = true :=
          List.all_eq_true.mpr (fun v hv =>
            isDoubleCell_of_isUint64Cell v (List.all_eq_true.mp hb v hv))
        rw [this] at hnd
        cases hnd
    simp [inferColType, colDtype, h1, h2, hnd, sqlTypeOfDtype]
  refine ⟨?_, ?_, ?_, ?_, h5, ?_, fun _ => rfl⟩
  · intro cells h
    have h1 : cells.all (fun c => isNaCell c || isInt64Lit c) = true :=
      List.all_eq_true.mpr (fun v hv => by
        simp [List.all_eq_true.mp h v hv])
    simp [inferColType, colDtype, h1, h, sqlTypeOfDtype]
  · intro cells h1 h2
    simp [inferColType, colDtype, h1, h2, sqlTypeOfDtype]
  · intro cells hd hni hnu
    simp [inferColType, colDtype, hni, hnu, hd, sqlTypeOfDtype]
  · intro cells hu hni64
    have hni : cells.all (fun c => isNaCell c || isInt64Lit c) = false := by
      cases hb : cells.all (fun c => isNaCell c || isInt64Lit c) with
      | false => rfl
      | true =>
        have : cells.all isInt64Lit = true :=
          List.all_eq_true.mpr (fun v hv => by
            cases hna : isNaCell v with
            | true =>
              have huv := List.all_eq_true.mp hu v hv
              rw [not_isUint64Cell_of_isNaCell v hna] at huv
              cases huv
            | false =>
              have hor := List.all_eq_true.mp hb v hv
              rw [hna, Bool.false_or] at hor
              exact hor)
        rw [this] at hni64
        cases hni64
    simp [inferColType, colDtype, hni, hu, sqlTypeOfDtype]
  · intro shardCols s hs ⟨v, hv, hnum⟩
    apply h5
    cases hall : shardCols.flatten.all isDoubleCell with
    | false => rfl
    | true =>
      have := List.all_eq_true.mp hall v (List.mem_flatten.mpr ⟨s, hs, hv⟩)
      rw [hnum] at this
      cases this

/-- Counterexample for C3 as stated: `"9223372036854775808"` is a
numeric integer representation but not a signed-64-bit one, so the
claim demands `REAL`, yet pandas types that column `uint64` and the
code's dtype test falls through to `TEXT`; and `"NA"` is a non-numeric
missing-value string mixed with a numeric value, for which the claim
demands `TEXT`, yet pandas types the column `float64` and the code
emits `REAL`. -/
theorem claim_C3_counterexample :
    (intLitVal "9223372036854775808".data).isSome = true ∧
    isInt64Lit "9223372036854775808".data = false ∧
    inferColType ["9223372036854775808".data] = ColumnType.text ∧
    inferColType ["1".data, "NA".data] = ColumnType.real := by
  refine ⟨by decide, by decide, by decide, by decide⟩

/-- Witness for C3 at concrete columns exercising each branch of the
cascade. -/
theorem claim_C3_witness :
    inferColType ["1".data, "2".data] = ColumnType.integer ∧
    inferColType ["1".data, "NA".data] = ColumnType.real ∧
    inferColType ["1".data, "2.5".data] = ColumnType.real ∧
    inferColType ["9223372036854775808".data] = ColumnType.text ∧
    inferColType ([["1".data], ["a".data]] : List (List Name)).flatten =
      ColumnType.text := by
  refine ⟨claim_C3.1 _ (by decide),
    claim_C3.2.1 _ (by decide) (by decide),
    claim_C3.2.2.1 _ (by decide) (by decide) (by decide),
    claim_C3.2.2.2.1 _ (by decide) (by decide),
    claim_C3.2.2.2.2.2.1 [["1".data], ["a".data]] ["a".data] (by decide)
      ⟨"a".data, by decide, by decide⟩⟩

/-! ## C2: merged row count and row order -/

theorem unionInto_cons (acc : List Name) (c : Name) (t : List Name) :
    unionInto acc (c :: t) = unionInto (if c ∈ acc then acc else acc ++ [c]) t := rfl

theorem unionInto_of_subset (h0 : List Name) :
    ∀ acc : List Name, (∀ c ∈ h0, c ∈ acc) → unionInto acc h0 = acc := by
  induction h0 with
  | nil => intro acc _; rfl
  | cons c t ih =>
    intro acc h
    rw [unionInto_cons, if_pos (h c (List.mem_cons_self c t))]
    exact ih acc (fun c' hc' => h c' (List.mem_cons_of_mem c hc'))

theorem unionInto_disjoint (h0 : List Name) :
    ∀ acc : List Name, h0.Nodup → (∀ c ∈ h0, c ∉ acc) →
      unionInto acc h0 = acc ++ h0 := by
  induction h0 with
  | nil => intro acc _ _; simp [unionInto]
  | cons c t ih =>
    intro acc hnd h
    rw [unionInto_cons, if_neg (h c (List.mem_cons_self c t))]
    have hnd' := List.nodup_cons.mp hnd
    rw [ih (acc ++ [c]) hnd'.2 ?_]
    · simp
    · intro c' hc' hmem
      rcases List.mem_append.mp hmem with hin | hin
      · exact h c' (List.mem_cons_of_mem c hc') hin
      · rw [List.mem_singleton] at hin
        exact hnd'.1 (hin ▸ hc')

theorem foldl_unionInto_const (l : List Df) (h0 : List Name)
    (hh : ∀ d ∈ l, d.header = h0) :
    l.foldl (fun acc d => unionInto acc d.header) h0 = h0 := by
  induction l with
  | nil => rfl
  | cons d t ih =>
    rw [List.foldl_cons, hh d (List.mem_cons_self d t),
      unionInto_of_subset h0 h0 (fun c hc => hc)]
    exact ih (fun d' hd' => hh d' (List.mem_cons_of_mem d hd'))

theorem joinHeaders_const (dfs : List Df) (h0 : List Name) (hne : dfs ≠ [])
    (hh : ∀ d ∈ dfs, d.header = h0) (hnd : h0.Nodup) : joinHeaders dfs = h0 := by
  cases dfs with
  | nil => cases hne rfl
  | cons d rest =>
    unfold joinHeaders
    rw [List.foldl_cons, hh d (List.mem_cons_self d rest)]
    rw [unionInto_disjoint h0 [] hnd (fun c _ h => by cases h)]
    rw [List.nil_append]
    exact foldl_unionInto_const rest h0
      (fun d' hd' => hh d' (List.mem_cons_of_mem d hd'))

theorem indexOfL_get {α : Type} [DecidableEq α] (l : List α) (hnd : l.Nodup) :
    ∀ (i : Nat) (hi : i < l.length), indexOfL (l.get ⟨i, hi⟩) l = i := by
  induction l with
  | nil => intro i hi; simp at hi
  | cons x t ih =>
    intro i hi
    cases i with
    | zero => simp [indexOfL]
    | succ j =>
      have hj : j < t.length := by simpa using hi
      have hget : (x :: t).get ⟨j + 1, hi⟩ = t.get ⟨j, hj⟩ := rfl
      rw [hget]
      have hx : ¬ (x = t.get ⟨j, hj⟩) := by
        intro hx
        exact (List.nodup_cons.mp hnd).1 (hx ▸ List.get_mem t j hj)
      simp only [indexOfL, hx, if_false]
      rw [ih (List.nodup_cons.mp hnd).2 j hj]

theorem reindexRow_self (h0 : List Name) (row : List Name) (hnd : h0.Nodup)
    (hlen : row.length = h0.length) : reindexRow h0 h0 row = row := by
  apply List.ext_getElem
  · simp [reindexRow, hlen]
  · intro i hi1 hi2
    simp only [reindexRow, List.getElem_map]
    have hi0 : i < h0.length := by simpa [reindexRow] using hi1
    have : h0[i] = h0.get ⟨i, hi0⟩ := rfl
    rw [this, indexOfL_get h0 hnd i hi0]
    exact List.getD_eq_getElem row [] hi2

theorem pdConcat_rows_of_same_header (dfs : List Df) (h0 : List Name)
    (hne : dfs ≠ []) (hh : ∀ d ∈ dfs, d.header = h0) (hnd : h0.Nodup)
    (hrect : ∀ d ∈ dfs, ∀ r ∈ d.rows, r.length = h0.length) :
    (pdConcat dfs).rows = (dfs.map Df.rows).flatten := by
  show ((dfs.map (fun d => d.rows.map (reindexRow (joinHeaders dfs) d.header))).flatten) =
    (dfs.map Df.rows).flatten
  rw [joinHeaders_const dfs h0 hne hh hnd]
  congr 1
  apply List.map_congr_left
  intro d hd
  rw [hh d hd]
  have hid : ∀ r ∈ d.rows, reindexRow h0 h0 r = r :=
    fun r hr => reindexRow_self h0 r hnd (hrect d hd r hr)
  rw [List.map_congr_left hid]
  simp

theorem drop_length_add {α : Type} (l1 l2 : List α) (n : Nat) :
    (l1 ++ l2).drop (l1.length + n) = l2.drop n := by
  induction l1 with
  | nil => simp
  | cons x t ih =>
    have hlen : (x :: t).length + n = (t.length + n) + 1 := by
      simp only [List.length_cons]
      omega
    rw [List.cons_append, hlen, List.drop_succ_cons]
    exact ih

theorem flatten_slice {α : Type} (L : List (List α)) :
    ∀ (k : Nat) (hk : k < L.length),
      (L.flatten.drop (((L.take k).map List.length).sum)).take
        (L.get ⟨k, hk⟩).length = L.get ⟨k, hk⟩ := by
  induction L with
  | nil => intro k hk; simp at hk
  | cons l0 rest ih =>
    intro k hk
    cases k with
    | zero =>
      simp only [List.take_zero, List.map_nil, List.sum_nil, List.drop_zero,
        List.flatten_cons]
      exact List.take_left l0 rest.flatten
    | succ j =>
      have hj : j < rest.length := by simpa using hk
      have hget : (l0 :: rest).get ⟨j + 1, hk⟩ = rest.get ⟨j, hj⟩ := rfl
      simp only [List.take_succ_cons, List.map_cons, List.sum_cons,
        List.flatten_cons, hget]
      have hdrop :
          (l0 ++ rest.flatten).drop (l0.length + ((rest.take j).map List.length).sum) =
            rest.flatten.drop (((rest.take j).map List.length).sum) :=
        drop_length_add l0 rest.flatten _
      rw [hdrop]
      exact ih j hj

/-- C2: for a group whose shards share one duplicate-free header and
rectangular rows, the merged dataframe's rows are exactly the shards'
rows concatenated in discovery order (each shard's internal order
preserved), the merged row count is the sum of the shard row counts,
every shard occupies its contiguous slice of the merged rows, and
`read_and_merge_csv_files` returns exactly this concatenation when all
shards read successfully. -/
theorem claim_C2 (dfs : List Df) (h0 : List Name)
    (hlen2 : 2 ≤ dfs.length)
    (hh : ∀ d ∈ dfs, d.header = h0) (hnd : h0.Nodup)
    (hrect : ∀ d ∈ dfs, ∀ r ∈ d.rows, r.length = h0.length) :
    (pdConcat dfs).rows = (dfs.map Df.rows).flatten ∧
    (pdConcat dfs).rows.length = (dfs.map (fun d => d.rows.length)).sum ∧
    (∀ (k : Nat) (hk : k < dfs.length),
      ((pdConcat dfs).rows.drop
        (((dfs.take k).map (fun d => d.rows.length)).sum)).take
          (dfs.get ⟨k, hk⟩).rows.length = (dfs.get ⟨k, hk⟩).rows) ∧
    (∀ (fetch : Name → List Nat) (paths : List Name),
      readShards fetch paths = Except.ok dfs →
      read_and_merge_csv_files fetch paths = Except.ok (pdConcat dfs)) := by
  have hne : dfs ≠ [] := by
    intro h
    rw [h] at hlen2
    simp at hlen2
  have hrows := pdConcat_rows_of_same_header dfs h0 hne hh hnd hrect
  refine ⟨hrows, ?_, ?_, ?_⟩
  · rw [hrows, List.length_flatten, List.map_map]
    rfl
  · intro k hk
    rw [hrows]
    have hk' : k < (dfs.map Df.rows).length := by simpa using hk
    have := flatten_slice (dfs.map Df.rows) k hk'
    have hget : (dfs.map Df.rows).get ⟨k, hk'⟩ = (dfs.get ⟨k, hk⟩).rows := by
      simp [List.get_eq_getElem]
    have htake : ((dfs.map Df.rows).take k).map List.length =
        (dfs.take k).map (fun d => d.rows.length) := by
      rw [← List.map_take, List.map_map]
      rfl
    rw [hget, htake] at this
    exact this
  · intro fetch paths hs
    unfold read_and_merge_csv_files
    rw [hs]

/-- Witness for C2 with two concrete single-column shards. -/
theorem claim_C2_witness :
    (pdConcat [⟨["c".data], [["1".data], ["2".data]]⟩,
      ⟨["c".data], [["3".data]]⟩]).rows =
      [["1".data], ["2".data], ["3".data]] ∧
    (pdConcat [⟨["c".data], [["1".data], ["2".data]]⟩,
      ⟨["c".data], [["3".data]]⟩]).rows.length = 3 := by
  have h := claim_C2
    [⟨["c".data], [["1".data], ["2".data]]⟩, ⟨["c".data], [["3".data]]⟩]
    ["c".data] (by decide) (by decide)
    (by decide) (by decide)
  constructor
  · rw [h.1]
    rfl
  · rw [h.2.1]
    rfl

/-! ## C8: extension case sensitivity -/

theorem splitOnChar_ne_nil (c : Char) (l : List Char) : splitOnChar c l ≠ [] := by
  cases l with
  | nil => simp [splitOnChar]
  | cons x xs =>
    unfold splitOnChar
    by_cases h : x = c
    · simp [h]
    · simp only [h, if_false]
      cases splitOnChar c xs <;> simp

theorem getLastD_irrel {α : Type} (l : List α) (hne : l ≠ []) (d1 d2 : α) :
    l.getLastD d1 = l.getLastD d2 := by
  cases l with
  | nil => cases hne rfl
  | cons a t => rw [List.getLastD_cons, List.getLastD_cons]

theorem splitOnChar_not_mem (c : Char) (r : List Char) (h : c ∉ r) :
    splitOnChar c r = [r] := by
  induction r with
  | nil => rfl
  | cons x t ih =>
    have hx : ¬ (x = c) := fun hxc => h (hxc ▸ List.mem_cons_self x t)
    have ht := ih (fun hc => h (List.mem_cons_of_mem x hc))
    unfold splitOnChar
    simp only [hx, if_false, ht]

theorem splitOnChar_length_two (c : Char) (l : List Char) (h : c ∈ l) :
    2 ≤ (splitOnChar c l).length := by
  induction l with
  | nil => cases h
  | cons x t ih =>
    unfold splitOnChar
    by_cases hx : x = c
    · simp only [hx, if_true]
      have h1 : 1 ≤ (splitOnChar c t).length :=
        List.length_pos.mpr (splitOnChar_ne_nil c t)
      simp only [List.length_cons]
      omega
    · have hct : c ∈ t := by
        rcases List.mem_cons.mp h with h' | h'
        · cases hx h'.symm
        · exact h'
      have h2 := ih hct
      simp only [hx, if_false]
      cases hS : splitOnChar c t with
      | nil => cases splitOnChar_ne_nil c t hS
      | cons hh tt =>
        rw [hS] at h2
        simpa using h2

theorem getLastD_splitOnChar_append (c : Char) (r : List Char) (hc : c ∉ r) :
    ∀ l : List Char, (splitOnChar c (l ++ c :: r)).getLastD [] = r := by
  intro l
  induction l with
  | nil =>
    show (splitOnChar c (c :: r)).getLastD [] = r
    have hstep : splitOnChar c (c :: r) = [] :: splitOnChar c r := by
      rw [splitOnChar.eq_def]
      simp
    rw [hstep, splitOnChar_not_mem c r hc, List.getLastD_cons,
      List.getLastD_cons]
    rfl
  | cons x t ih =>
    show (splitOnChar c (x :: (t ++ c :: r))).getLastD [] = r
    by_cases hx : x = c
    · have hstep : splitOnChar c (x :: (t ++ c :: r)) =
          [] :: splitOnChar c (t ++ c :: r) := by
        rw [splitOnChar.eq_def]
        simp [hx]
      rw [hstep, List.getLastD_cons]
      exact ih
    · have hmem : c ∈ t ++ c :: r :=
        List.mem_append.mpr (Or.inr (List.mem_cons_self c r))
      cases hS : splitOnChar c (t ++ c :: r) with
      | nil => cases splitOnChar_ne_nil c (t ++ c :: r) hS
      | cons hh tt =>
        have hstep : splitOnChar c (x :: (t ++ c :: r)) = (x :: hh) :: tt := by
          rw [splitOnChar.eq_def]
          simp [hx, hS]
        rw [hstep, List.getLastD_cons]
        have hlen := splitOnChar_length_two c (t ++ c :: r) hmem
        rw [hS] at hlen
        cases tt with
        | nil => simp at hlen
        | cons u us =>
          have ihS : (u :: us).getLastD hh = r := by
            rw [hS, List.getLastD_cons] at ih
            exact ih
          rw [getLastD_irrel (u :: us) (by simp) (x :: hh) hh]
          exact ihS

theorem isImageExt_append_ext (stem ext : List Char) (h : '.' ∉ ext) :
    isImageExt (stem ++ '.' :: ext) = imageExts.contains (toLowerStr ext) := by
  unfold isImageExt
  rw [getLastD_splitOnChar_append '.' ext h stem]

theorem listEndsWith_append_self (p stem : List Char) :
    listEndsWith p (stem ++ p) = true := by
  unfold listEndsWith
  have h1 : p.length ≤ (stem ++ p).length := by
    simp
  have h2 : (stem ++ p).drop ((stem ++ p).length - p.length) = p := by
    have : (stem ++ p).length - p.length = stem.length := by
      simp
    rw [this, List.drop_left]
  simp [h1, h2]

theorem listEndsWith_append_ne (p q stem : List Char)
    (hlen : p.length = q.length) (hne : q ≠ p) :
    listEndsWith p (stem ++ q) = false := by
  unfold listEndsWith
  have h2 : (stem ++ q).drop ((stem ++ q).length - p.length) = q := by
    have heq : (stem ++ q).length - p.length = stem.length := by
      simp [hlen]
    rw [heq, List.drop_left]
  rw [h2]
  simp [hne]

/-- C8 (amended): image-extension matching is case-insensitive — two
extension spellings with the same lowercasing are classified alike —
but `.csv` matching is case-sensitive: `endswith('.csv')` accepts only
the lowercase spelling, `'.CSV'` matches neither the csv test nor the
image allow-list, and any path ending in `.CSV` is therefore skipped
regardless of its segment count. -/
theorem claim_C8 (stem ext1 ext2 : List Char)
    (hlow : toLowerStr ext1 = toLowerStr ext2)
    (h1 : '.' ∉ ext1) (h2 : '.' ∉ ext2) :
    isImageExt (stem ++ '.' :: ext1) = isImageExt (stem ++ '.' :: ext2) ∧
    isCsvName (stem ++ ".csv".data) = true ∧
    isCsvName (stem ++ ".CSV".data) = false ∧
    acceptName (stem ++ ".CSV".data) = false := by
  have hcsvF : isCsvName (stem ++ ".CSV".data) = false := by
    unfold isCsvName
    exact listEndsWith_append_ne ".csv".data ".CSV".data stem (by decide) (by decide)
  refine ⟨?_, ?_, hcsvF, ?_⟩
  · rw [isImageExt_append_ext stem ext1 h1, isImageExt_append_ext stem ext2 h2,
      hlow]
  · exact listEndsWith_append_self ".csv".data stem
  · unfold acceptName
    have himg : isImageExt (stem ++ ".CSV".data) = false := by
      have : (stem ++ ".CSV".data) = stem ++ '.' :: "CSV".data := rfl
      rw [this, isImageExt_append_ext stem "CSV".data (by decide)]
      decide
    rw [hcsvF, himg]
    simp

/-- Counterexample for C8 as stated: uppercasing only the extension of
an accepted `.csv` object changes its acceptance. -/
theorem claim_C8_counterexample :
    acceptName "x/a/b/c/d.csv".data = true ∧
    acceptName "x/a/b/c/d.CSV".data = false := by
  constructor
  · decide
  · decide

/-- Witness for C8 at concrete path/extension spellings. -/
theorem claim_C8_witness :
    isImageExt ("x/a/b/c/d".data ++ '.' :: "PNG".data) =
      isImageExt ("x/a/b/c/d".data ++ '.' :: "png".data) ∧
    isCsvName ("x/a/b/c/d".data ++ ".csv".data) = true ∧
    isCsvName ("x/a/b/c/d".data ++ ".CSV".data) = false ∧
    acceptName ("x/a/b/c/d".data ++ ".CSV".data) = false :=
  claim_C8 "x/a/b/c/d".data "PNG".data "png".data (by decide) (by decide)
    (by decide)

/-! ## C9: agreement of the two discovery variants on tabular groups -/

theorem lookupA_insApp_self {α : Type} [DecidableEq α] (k : α) (v : Name)
    (l : List (α × List Name)) :
    lookupA k (insApp k v l) = some ((lookupA k l).getD [] ++ [v]) :=
  lookupA_updOrApp_self k _ [] l

theorem lookupA_insApp_ne {α : Type} [DecidableEq α] (k k' : α) (v : Name)
    (l : List (α × List Name)) (h : k' ≠ k) :
    lookupA k' (insApp k v l) = lookupA k' l :=
  lookupA_updOrApp_ne k k' _ [] l h

theorem nestedLookup_nestedInsert_self (st : NestedDbs) (d s t v : Name) :
    nestedLookup (nestedInsert st d s t v) d s t =
      some ((nestedLookup st d s t).getD [] ++ [v]) := by
  unfold nestedInsert nestedLookup
  rw [lookupA_updOrApp_self]
  simp only [Option.some_bind]
  rw [lookupA_updOrApp_self]
  simp only [Option.some_bind]
  rw [lookupA_updOrApp_self]
  cases h1 : lookupA d st with
  | none => simp [h1, lookupA]
  | some sc =>
    cases h2 : lookupA s sc with
    | none => simp [h2, lookupA]
    | some tb => simp [h2]

theorem nestedLookup_nestedInsert_ne (st : NestedDbs) (d s t v d' s' t' : Name)
    (h : ¬(d' = d ∧ s' = s ∧ t' = t)) :
    nestedLookup (nestedInsert st d s t v) d' s' t' = nestedLookup st d' s' t' := by
  unfold nestedInsert nestedLookup
  by_cases hd : d' = d
  · subst hd
    rw [lookupA_updOrApp_self]
    simp only [Option.some_bind]
    by_cases hs : s' = s
    · subst hs
      rw [lookupA_updOrApp_self]
      simp only [Option.some_bind]
      have ht : t' ≠ t := fun hteq => h ⟨rfl, rfl, hteq⟩
      rw [lookupA_updOrApp_ne _ _ _ _ _ ht]
      cases h1 : lookupA d' st with
      | none => simp [h1, lookupA]
      | some sc =>
        cases h2 : lookupA s' sc with
        | none => simp [h2, lookupA]
        | some tb => simp [h2]
    · rw [lookupA_updOrApp_ne _ _ _ _ _ hs]
      cases h1 : lookupA d' st with
      | none => simp [h1, lookupA]
      | some sc => simp [h1]
  · rw [lookupA_updOrApp_ne _ _ _ _ _ hd]

theorem csv_stepUpdated_nonCsv (st : UpdatedStructure) (b : Blob)
    (h : isCsvName b.name = false) : (stepUpdated st b).csv = st.csv := by
  unfold stepUpdated
  by_cases ha : acceptName b.name = true
  · simp [ha, h]
  · simp [ha]

theorem stepUpdated_csv_accepted (st : UpdatedStructure) (b : Blob)
    (hacc : acceptName b.name = true) (hcsv : isCsvName b.name = true) :
    stepUpdated st b =
      UpdatedStructure.mk
        (insApp
          ((splitOnChar '/' b.name).getD 1 [],
           (splitOnChar '/' b.name).getD 2 [],
           (splitOnChar '/' b.name).getD 3 []) b.name st.csv)
        st.images := by
  simp [stepUpdated, hacc, hcsv]

theorem finalGo_agree (blobs : List Blob)
    (hsafe : ∀ b ∈ blobs,
      ¬(isCsvName b.name = true ∧ (splitOnChar '/' b.name).length = 4)) :
    ∀ (acc_n : NestedDbs) (acc_u : UpdatedStructure),
      (∀ d s t : Name, lookupA (d, s, t) acc_u.csv = nestedLookup acc_n d s t) →
      ∃ res, finalGo acc_n blobs = Except.ok res ∧
        ∀ d s t : Name,
          lookupA (d, s, t) (updatedGo acc_u blobs).csv = nestedLookup res d s t := by
  induction blobs with
  | nil => intro acc_n acc_u hinv; exact ⟨acc_n, rfl, hinv⟩
  | cons b bs ih =>
    intro acc_n acc_u hinv
    have hsafe' : ∀ b' ∈ bs,
        ¬(isCsvName b'.name = true ∧ (splitOnChar '/' b'.name).length = 4) :=
      fun b' hb' => hsafe b' (List.mem_cons_of_mem b hb')
    cases hcsv : isCsvName b.name with
    | false =>
      have hstepF : stepFinal acc_n b = Except.ok acc_n := by
        simp [stepFinal, hcsv]
      have hgoF : finalGo acc_n (b :: bs) = finalGo acc_n bs := by
        simp [finalGo, hstepF]
      have hgoU : updatedGo acc_u (b :: bs) = updatedGo (stepUpdated acc_u b) bs := rfl
      rw [hgoF, hgoU]
      exact ih hsafe' acc_n (stepUpdated acc_u b)
        (fun d s t => by rw [csv_stepUpdated_nonCsv acc_u b hcsv]; exact hinv d s t)
    | true =>
      by_cases hlen5 : 5 ≤ (splitOnChar '/' b.name).length
      · -- both variants insert the same shard under the same key
        obtain ⟨x, hx⟩ : ∃ x, (splitOnChar '/' b.name)[4]? = some x := by
          cases hp : (splitOnChar '/' b.name)[4]? with
          | none =>
            have := List.getElem?_eq_none_iff.mp hp
            omega
          | some x => exact ⟨x, rfl⟩
        have hlen4 : 4 ≤ (splitOnChar '/' b.name).length := by omega
        have hstepF : stepFinal acc_n b = Except.ok
            (nestedInsert acc_n ((splitOnChar '/' b.name).getD 1 [])
              ((splitOnChar '/' b.name).getD 2 [])
              ((splitOnChar '/' b.name).getD 3 []) b.name) := by
          simp [stepFinal, hcsv, hlen4, hx]
        have hgoF : finalGo acc_n (b :: bs) = finalGo
            (nestedInsert acc_n ((splitOnChar '/' b.name).getD 1 [])
              ((splitOnChar '/' b.name).getD 2 [])
              ((splitOnChar '/' b.name).getD 3 []) b.name) bs := by
          simp [finalGo, hstepF]
        have hacc : acceptName b.name = true := by
          unfold acceptName
          rw [hcsv]
          simp [hlen5]
        have hgoU : updatedGo acc_u (b :: bs) = updatedGo (stepUpdated acc_u b) bs := rfl
        rw [hgoF, hgoU, stepUpdated_csv_accepted acc_u b hacc hcsv]
        apply ih hsafe'
        intro d s t
        show lookupA (d, s, t)
          (insApp ((splitOnChar '/' b.name).getD 1 [], (splitOnChar '/' b.name).getD 2 [],
            (splitOnChar '/' b.name).getD 3 []) b.name acc_u.csv) = _
        by_cases hk : d = (splitOnChar '/' b.name).getD 1 [] ∧
            s = (splitOnChar '/' b.name).getD 2 [] ∧
            t = (splitOnChar '/' b.name).getD 3 []
        · obtain ⟨h1, h2, h3⟩ := hk
          subst h1; subst h2; subst h3
          rw [lookupA_insApp_self, nestedLookup_nestedInsert_self, hinv]
        · have hk' : ((d, s, t) : GroupKey) ≠
              ((splitOnChar '/' b.name).getD 1 [], (splitOnChar '/' b.name).getD 2 [],
               (splitOnChar '/' b.name).getD 3 []) := by
            intro he
            apply hk
            simpa [Prod.ext_iff] using he
          rw [lookupA_insApp_ne _ _ _ _ hk',
            nestedLookup_nestedInsert_ne _ _ _ _ _ _ _ _ hk]
          exact hinv d s t
      · -- fewer than 5 segments: with 4-segment csvs excluded, both skip
        have hne4 : (splitOnChar '/' b.name).length ≠ 4 := by
          intro h4
          exact hsafe b (List.mem_cons_self b bs) ⟨hcsv, h4⟩
        have hlt4 : ¬ (4 ≤ (splitOnChar '/' b.name).length) := by omega
        have hstepF : stepFinal acc_n b = Except.ok acc_n := by
          simp [stepFinal, hcsv, hlt4]
        have hgoF : finalGo acc_n (b :: bs) = finalGo acc_n bs := by
          simp [finalGo, hstepF]
        have haccF : acceptName b.name = false := by
          unfold acceptName
          simp [hlen5]
        have hgoU : updatedGo acc_u (b :: bs) = updatedGo acc_u bs := by
          show updatedGo (stepUpdated acc_u b) bs = updatedGo acc_u bs
          rw [stepUpdated_skip acc_u b haccF]
        rw [hgoF, hgoU]
        exact ih hsafe' acc_n acc_u hinv

/-- C9 (amended): for every bucket listing in which no `.csv` object
has exactly 4 slash segments, `final_code.py`'s discovery succeeds and,
as a mapping, sends each `(database, schema, table)` key to exactly the
shard list that `updated_code.py`'s `"csv"` mapping records for that
key; a 4-segment `.csv` object instead makes `final_code.py` raise
`IndexError`, so the two variants do not agree on every listing. -/
theorem claim_C9 (blobs : List Blob)
    (hsafe : ∀ b ∈ blobs,
      ¬(isCsvName b.name = true ∧ (splitOnChar '/' b.name).length = 4)) :
    ∃ res, final_list_files blobs = Except.ok res ∧
      ∀ d s t : Name,
        lookupA (d, s, t) (list_files_in_bucket_structure blobs).csv =
          nestedLookup res d s t :=
  finalGo_agree blobs hsafe [] ⟨[], []⟩ (fun _ _ _ => rfl)

/-- Counterexample for C9 as stated: on the listing holding only
`"x/a/b/c.csv"`, `final_code.py`'s discovery raises `IndexError` and
produces no mapping at all, while `updated_code.py`'s csv mapping is
empty — the two variants do not agree on every listing. -/
theorem claim_C9_counterexample :
    final_list_files [⟨"x/a/b/c.csv".data, "v".data⟩] =
      Except.error "IndexError" ∧
    (list_files_in_bucket_structure [⟨"x/a/b/c.csv".data, "v".data⟩]).csv = [] := by
  exact ⟨by rfl, by rfl⟩

/-- Witness for C9 on a concrete well-formed listing. -/
theorem claim_C9_witness :
    ∃ res, final_list_files [⟨"x/a/b/c/d.csv".data, "u".data⟩] = Except.ok res ∧
      ∀ d s t : Name,
        lookupA (d, s, t)
          (list_files_in_bucket_structure [⟨"x/a/b/c/d.csv".data, "u".data⟩]).csv =
          nestedLookup res d s t :=
  claim_C9 [⟨"x/a/b/c/d.csv".data, "u".data⟩] (by decide)

/-! ## C5: connection lifecycle -/

theorem adminOpenCount_append (t1 t2 : List ConnEvent) (id : Nat) :
    adminOpenCount (t1 ++ t2) id = adminOpenCount t1 id + adminOpenCount t2 id := by
  unfold adminOpenCount
  rw [List.countP_append]

theorem targetOpenCount_append (t1 t2 : List ConnEvent) (id : Nat) :
    targetOpenCount (t1 ++ t2) id = targetOpenCount t1 id + targetOpenCount t2 id := by
  unfold targetOpenCount
  rw [List.countP_append]

theorem closeCount_append (t1 t2 : List ConnEvent) (id : Nat) :
    closeCount (t1 ++ t2) id = closeCount t1 id + closeCount t2 id := by
  unfold closeCount
  rw [List.countP_append]

theorem targetOpensDb_append (t1 t2 : List ConnEvent) (db : Name) :
    targetOpensDb (t1 ++ t2) db = targetOpensDb t1 db + targetOpensDb t2 db := by
  unfold targetOpensDb
  rw [List.countP_append]

theorem targetOpens_append (t1 t2 : List ConnEvent) :
    targetOpens (t1 ++ t2) = targetOpens t1 ++ targetOpens t2 := by
  unfold targetOpens
  rw [List.filterMap_append]

theorem adminOpenCount_singleA (i id : Nat) :
    adminOpenCount [ConnEvent.openedAdmin i] id = if i = id then 1 else 0 := by
  simp [adminOpenCount, List.countP_cons]

theorem adminOpenCount_singleT (d : Name) (i id : Nat) :
    adminOpenCount [ConnEvent.openedTarget d i] id = 0 := by
  simp [adminOpenCount, List.countP_cons]

theorem adminOpenCount_singleC (i id : Nat) :
    adminOpenCount [ConnEvent.closedConn i] id = 0 := by
  simp [adminOpenCount, List.countP_cons]

theorem targetOpenCount_singleA (i id : Nat) :
    targetOpenCount [ConnEvent.openedAdmin i] id = 0 := by
  simp [targetOpenCount, List.countP_cons]

theorem targetOpenCount_singleT (d : Name) (i id : Nat) :
    targetOpenCount [ConnEvent.openedTarget d i] id = if i = id then 1 else 0 := by
  simp [targetOpenCount, List.countP_cons]

theorem targetOpenCount_singleC (i id : Nat) :
    targetOpenCount [ConnEvent.closedConn i] id = 0 := by
  simp [targetOpenCount, List.countP_cons]

theorem closeCount_singleA (i id : Nat) :
    closeCount [ConnEvent.openedAdmin i] id = 0 := by
  simp [closeCount, List.countP_cons]

theorem closeCount_singleT (d : Name) (i id : Nat) :
    closeCount [ConnEvent.openedTarget d i] id = 0 := by
  simp [closeCount, List.countP_cons]

theorem closeCount_singleC (i id : Nat) :
    closeCount [ConnEvent.closedConn i] id = if i = id then 1 else 0 := by
  simp [closeCount, List.countP_cons]

theorem targetOpensDb_singleA (i : Nat) (db : Name) :
    targetOpensDb [ConnEvent.openedAdmin i] db = 0 := by
  simp [targetOpensDb, List.countP_cons]

theorem targetOpensDb_singleT (d : Name) (i : Nat) (db : Name) :
    targetOpensDb [ConnEvent.openedTarget d i] db = if d = db then 1 else 0 := by
  simp [targetOpensDb, List.countP_cons]

theorem targetOpensDb_singleC (i : Nat) (db : Name) :
    targetOpensDb [ConnEvent.closedConn i] db = 0 := by
  simp [targetOpensDb, List.countP_cons]

theorem targetOpens_singleA (i : Nat) :
    targetOpens [ConnEvent.openedAdmin i] = [] := rfl

theorem targetOpens_singleT (d : Name) (i : Nat) :
    targetOpens [ConnEvent.openedTarget d i] = [(d, i)] := rfl

theorem targetOpens_singleC (i : Nat) :
    targetOpens [ConnEvent.closedConn i] = [] := rfl

theorem adminOpenCount_eq_zero (tr : List ConnEvent) (n : Nat)
    (h : ∀ e ∈ tr, eventId e < n) : adminOpenCount tr n = 0 := by
  unfold adminOpenCount
  rw [List.countP_eq_zero]
  intro e he
  have h' := h e he
  cases e with
  | openedAdmin i =>
    simp only [eventId] at h'
    simp only [decide_eq_true_eq]
    omega
  | openedTarget d i => simp
  | closedConn i => simp

theorem targetOpenCount_eq_zero (tr : List ConnEvent) (n : Nat)
    (h : ∀ e ∈ tr, eventId e < n) : targetOpenCount tr n = 0 := by
  unfold targetOpenCount
  rw [List.countP_eq_zero]
  intro e he
  have h' := h e he
  cases e with
  | openedAdmin i => simp
  | openedTarget d i =>
    simp only [eventId] at h'
    simp only [decide_eq_true_eq]
    omega
  | closedConn i => simp

theorem closeCount_eq_zero (tr : List ConnEvent) (n : Nat)
    (h : ∀ e ∈ tr, eventId e < n) : closeCount tr n = 0 := by
  unfold closeCount
  rw [List.countP_eq_zero]
  intro e he
  have h' := h e he
  cases e with
  | openedAdmin i => simp
  | openedTarget d i => simp
  | closedConn i =>
    simp only [eventId] at h'
    simp only [decide_eq_true_eq]
    omega

theorem lookupA_append_left {α β : Type} [DecidableEq α] (k : α)
    (l l2 : List (α × β)) (v : β) (h : lookupA k l = some v) :
    lookupA k (l ++ l2) = some v := by
  induction l with
  | nil => cases h
  | cons p rest ih =>
    obtain ⟨k', v'⟩ := p
    by_cases hk : k = k'
    · subst hk
      simp only [lookupA, if_pos rfl, List.cons_append] at h ⊢
      exact h
    · simp only [lookupA, hk, if_false, List.cons_append] at h ⊢
      exact ih h

theorem lookupA_none_iff {α β : Type} [DecidableEq α] (k : α)
    (l : List (α × β)) : lookupA k l = none ↔ k ∉ l.map Prod.fst := by
  induction l with
  | nil => simp [lookupA]
  | cons p rest ih =>
    obtain ⟨k', v'⟩ := p
    by_cases hk : k = k'
    · simp [lookupA, hk]
    · simp [lookupA, hk, ih]

theorem conns_ids_lt (s : RunState) (h1 : targetOpens s.trace = s.conns)
    (h6 : ∀ e ∈ s.trace, eventId e < s.nextId) :
    ∀ p ∈ s.conns, p.2 < s.nextId := by
  intro p hp
  rw [← h1] at hp
  obtain ⟨e, he, hfe⟩ := List.mem_filterMap.mp hp
  cases e with
  | openedAdmin i => cases hfe
  | openedTarget d i =>
    have : p = (d, i) := by
      simpa using hfe.symm
    rw [this]
    exact h6 _ he
  | closedConn i => cases hfe

theorem nodup_append_single {α : Type} (l : List α) (a : α) (hl : l.Nodup)
    (ha : a ∉ l) : (l ++ [a]).Nodup := by
  rw [List.nodup_append]
  refine ⟨hl, List.nodup_singleton a, fun x hx hxa => ?_⟩
  rw [List.mem_singleton] at hxa
  exact ha (hxa ▸ hx)

theorem connInv_step (fail : Option (Nat × FailSite)) (idx : Nat) (db : Name)
    (s : RunState) (h : ConnInv s) : ConnInv (stepGroup fail idx db s) := by
  obtain ⟨h1, h2, h3, h4, h5, h6⟩ := h
  have hplt := conns_ids_lt s h1 h6
  unfold stepGroup
  by_cases hh : s.halted = true
  · rw [if_pos hh]
    exact ⟨h1, h2, h3, h4, h5, h6⟩
  rw [if_neg hh]
  cases hl : lookupA db s.conns with
  | some c =>
    by_cases hb : fail = some (idx, FailSite.body)
    · rw [if_pos hb]
      exact ⟨h1, h2, h3, h4, h5, h6⟩
    · rw [if_neg hb]
      exact ⟨h1, h2, h3, h4, h5, h6⟩
  | none =>
    by_cases ha : fail = some (idx, FailSite.connectAdmin)
    · rw [if_pos ha]
      exact ⟨h1, h2, h3, h4, h5, h6⟩
    rw [if_neg ha]
    by_cases hc : fail = some (idx, FailSite.createDb)
    · rw [if_pos hc]
      refine ⟨?_, h2, h3, ?_, ?_, ?_⟩
      · show targetOpens (s.trace ++ [ConnEvent.openedAdmin s.nextId]) = s.conns
        rw [targetOpens_append, targetOpens_singleA, List.append_nil, h1]
      · intro p hp
        show closeCount (s.trace ++ [ConnEvent.openedAdmin s.nextId]) p.2 = 0
        rw [closeCount_append, closeCount_singleA, h4 p hp]
      · intro id
        show adminOpenCount (s.trace ++ [ConnEvent.openedAdmin s.nextId]) id +
          targetOpenCount (s.trace ++ [ConnEvent.openedAdmin s.nextId]) id ≤ 1
        rw [adminOpenCount_append, targetOpenCount_append, adminOpenCount_singleA,
          targetOpenCount_singleA]
        by_cases hid : s.nextId = id
        · subst hid
          rw [adminOpenCount_eq_zero s.trace s.nextId h6,
            targetOpenCount_eq_zero s.trace s.nextId h6]
          simp
        · rw [if_neg hid]
          have := h5 id
          omega
      · intro e he
        show eventId e < s.nextId + 1
        rcases List.mem_append.mp he with h' | h'
        · exact Nat.lt_succ_of_lt (h6 e h')
        · rw [List.mem_singleton] at h'
          subst h'
          simp [eventId]
    rw [if_neg hc]
    by_cases ht : fail = some (idx, FailSite.connectTarget)
    · rw [if_pos ht]
      refine ⟨?_, h2, h3, ?_, ?_, ?_⟩
      · show targetOpens ((s.trace ++ [ConnEvent.openedAdmin s.nextId]) ++
          [ConnEvent.closedConn s.nextId]) = s.conns
        rw [targetOpens_append, targetOpens_append, targetOpens_singleA,
          targetOpens_singleC, List.append_nil, List.append_nil, h1]
      · intro p hp
        show closeCount ((s.trace ++ [ConnEvent.openedAdmin s.nextId]) ++
          [ConnEvent.closedConn s.nextId]) p.2 = 0
        rw [closeCount_append, closeCount_append, closeCount_singleA,
          closeCount_singleC, h4 p hp]
        have : ¬ (s.nextId = p.2) := by
          have := hplt p hp
          omega
        rw [if_neg this]
      · intro id
        show adminOpenCount ((s.trace ++ [ConnEvent.openedAdmin s.nextId]) ++
            [ConnEvent.closedConn s.nextId]) id +
          targetOpenCount ((s.trace ++ [ConnEvent.openedAdmin s.nextId]) ++
            [ConnEvent.closedConn s.nextId]) id ≤ 1
        rw [adminOpenCount_append, adminOpenCount_append, targetOpenCount_append,
          targetOpenCount_append, adminOpenCount_singleA, adminOpenCount_singleC,
          targetOpenCount_singleA, targetOpenCount_singleC]
        by_cases hid : s.nextId = id
        · subst hid
          rw [adminOpenCount_eq_zero s.trace s.nextId h6,
            targetOpenCount_eq_zero s.trace s.nextId h6]
          simp
        · rw [if_neg hid]
          have := h5 id
          omega
      · intro e he
        show eventId e < s.nextId + 1
        rcases List.mem_append.mp he with h' | h'
        · rcases List.mem_append.mp h' with h'' | h''
          · exact Nat.lt_succ_of_lt (h6 e h'')
          · rw [List.mem_singleton] at h''
            subst h''
            simp [eventId]
        · rw [List.mem_singleton] at h'
          subst h'
          simp [eventId]
    rw [if_neg ht]
    refine ⟨?_, ?_, ?_, ?_, ?_, ?_⟩
    · show targetOpens (((s.trace ++ [ConnEvent.openedAdmin s.nextId]) ++
        [ConnEvent.closedConn s.nextId]) ++
        [ConnEvent.openedTarget db (s.nextId + 1)]) =
        s.conns ++ [(db, s.nextId + 1)]
      rw [targetOpens_append, targetOpens_append, targetOpens_append,
        targetOpens_singleA, targetOpens_singleC, targetOpens_singleT,
        List.append_nil, List.append_nil, h1]
    · show ((s.conns ++ [(db, s.nextId + 1)]).map Prod.fst).Nodup
      rw [List.map_append]
      exact nodup_append_single _ db h2 ((lookupA_none_iff db s.conns).mp hl)
    · show ((s.conns ++ [(db, s.nextId + 1)]).map Prod.snd).Nodup
      rw [List.map_append]
      refine nodup_append_single _ _ h3 ?_
      intro hmem
      obtain ⟨p, hp, hpe⟩ := List.mem_map.mp hmem
      have := hplt p hp
      omega
    · intro p hp
      show closeCount (((s.trace ++ [ConnEvent.openedAdmin s.nextId]) ++
        [ConnEvent.closedConn s.nextId]) ++
        [ConnEvent.openedTarget db (s.nextId + 1)]) p.2 = 0
      rw [closeCount_append, closeCount_append, closeCount_append,
        closeCount_singleA, closeCount_singleT, closeCount_singleC]
      rcases List.mem_append.mp hp with h' | h'
      · rw [h4 p h']
        have : ¬ (s.nextId = p.2) := by
          have := hplt p h'
          omega
        rw [if_neg this]
      · rw [List.mem_singleton] at h'
        subst h'
        show closeCount s.trace (s.nextId + 1) + 0 +
          (if s.nextId = s.nextId + 1 then 1 else 0) + 0 + 0 = 0
        rw [closeCount_eq_zero s.trace (s.nextId + 1)
          (fun e he => Nat.lt_succ_of_lt (h6 e he))]
        rw [if_neg (by omega)]
    · intro id
      show adminOpenCount (((s.trace ++ [ConnEvent.openedAdmin s.nextId]) ++
          [ConnEvent.closedConn s.nextId]) ++
          [ConnEvent.openedTarget db (s.nextId + 1)]) id +
        targetOpenCount (((s.trace ++ [ConnEvent.openedAdmin s.nextId]) ++
          [ConnEvent.closedConn s.nextId]) ++
          [ConnEvent.openedTarget db (s.nextId + 1)]) id ≤ 1
      rw [adminOpenCount_append, adminOpenCount_append, adminOpenCount_append,
        targetOpenCount_append, targetOpenCount_append, targetOpenCount_append,
        adminOpenCount_singleA, adminOpenCount_singleC, adminOpenCount_singleT,
        targetOpenCount_singleA, targetOpenCount_singleC, targetOpenCount_singleT]
      by_cases hid : s.nextId = id
      · subst hid
        rw [adminOpenCount_eq_zero s.trace s.nextId h6,
          targetOpenCount_eq_zero s.trace s.nextId h6]
        rw [if_pos rfl, if_neg (by omega)]
      · rw [if_neg hid]
        by_cases hid2 : s.nextId + 1 = id
        · rw [if_pos hid2]
          rw [← hid2]
          rw [adminOpenCount_eq_zero s.trace (s.nextId + 1)
            (fun e he => Nat.lt_succ_of_lt (h6 e he)),
            targetOpenCount_eq_zero s.trace (s.nextId + 1)
            (fun e he => Nat.lt_succ_of_lt (h6 e he))]
        · rw [if_neg hid2]
          have := h5 id
          omega
    · intro e he
      show eventId e < s.nextId + 2
      rcases List.mem_append.mp he with h' | h'
      · rcases List.mem_append.mp h' with h'' | h''
        · rcases List.mem_append.mp h'' with h3' | h3'
          · have := h6 e h3'
            omega
          · rw [List.mem_singleton] at h3'
            subst h3'
            simp [eventId]
        · rw [List.mem_singleton] at h''
          subst h''
          simp [eventId]
      · rw [List.mem_singleton] at h'
        subst h'
        simp [eventId]

theorem admInv_step (fail : Option (Nat × FailSite)) (idx : Nat) (db : Name)
    (s : RunState) (hf : ∀ i, fail ≠ some (i, FailSite.createDb))
    (hci : ConnInv s) (h : AdmInv s) : AdmInv (stepGroup fail idx db s) := by
  obtain ⟨h1, h2, h3, h4, h5, h6⟩ := hci
  unfold stepGroup
  by_cases hh : s.halted = true
  · rw [if_pos hh]
    exact h
  rw [if_neg hh]
  cases hl : lookupA db s.conns with
  | some c =>
    by_cases hb : fail = some (idx, FailSite.body)
    · rw [if_pos hb]
      exact h
    · rw [if_neg hb]
      exact h
  | none =>
    by_cases ha : fail = some (idx, FailSite.connectAdmin)
    · rw [if_pos ha]
      exact h
    rw [if_neg ha]
    by_cases hc : fail = some (idx, FailSite.createDb)
    · exact absurd hc (hf idx)
    rw [if_neg hc]
    by_cases ht : fail = some (idx, FailSite.connectTarget)
    · rw [if_pos ht]
      intro id hopen
      show closeCount ((s.trace ++ [ConnEvent.openedAdmin s.nextId]) ++
        [ConnEvent.closedConn s.nextId]) id = 1
      rw [adminOpenCount_append, adminOpenCount_append, adminOpenCount_singleA,
        adminOpenCount_singleC] at hopen
      rw [closeCount_append, closeCount_append, closeCount_singleA,
        closeCount_singleC]
      by_cases hid : s.nextId = id
      · rw [if_pos hid] at hopen ⊢
        rw [← hid, closeCount_eq_zero s.trace s.nextId h6]
      · rw [if_neg hid] at hopen ⊢
        have hone : 1 ≤ adminOpenCount s.trace id := by omega
        rw [h id hone]
    · rw [if_neg ht]
      intro id hopen
      show closeCount (((s.trace ++ [ConnEvent.openedAdmin s.nextId]) ++
        [ConnEvent.closedConn s.nextId]) ++
        [ConnEvent.openedTarget db (s.nextId + 1)]) id = 1
      rw [adminOpenCount_append, adminOpenCount_append, adminOpenCount_append,
        adminOpenCount_singleA, adminOpenCount_singleC,
        adminOpenCount_singleT] at hopen
      rw [closeCount_append, closeCount_append, closeCount_append,
        closeCount_singleA, closeCount_singleC, closeCount_singleT]
      by_cases hid : s.nextId = id
      · rw [if_pos hid] at hopen ⊢
        rw [← hid, closeCount_eq_zero s.trace s.nextId h6]
      · rw [if_neg hid] at hopen ⊢
        have hone : 1 ≤ adminOpenCount s.trace id := by omega
        rw [h id hone]

theorem connInv_run (fail : Option (Nat × FailSite)) :
    ∀ (keys : List Name) (idx : Nat) (s : RunState),
      ConnInv s → ConnInv (runGroupsConn fail idx s keys) := by
  intro keys
  induction keys with
  | nil => intro idx s h; exact h
  | cons k rest ih =>
    intro idx s h
    exact ih (idx + 1) _ (connInv_step fail idx k s h)

theorem admInv_run (fail : Option (Nat × FailSite))
    (hf : ∀ i, fail ≠ some (i, FailSite.createDb)) :
    ∀ (keys : List Name) (idx : Nat) (s : RunState),
      ConnInv s → AdmInv s → AdmInv (runGroupsConn fail idx s keys) := by
  intro keys
  induction keys with
  | nil => intro idx s _ h; exact h
  | cons k rest ih =>
    intro idx s hc h
    exact ih (idx + 1) _ (connInv_step fail idx k s hc)
      (admInv_step fail idx k s hf hc h)

theorem connInv_init : ConnInv initRunState := by
  refine ⟨rfl, List.nodup_nil, List.nodup_nil, ?_, ?_, ?_⟩
  · intro p hp
    cases hp
  · intro id
    exact Nat.zero_le 1
  · intro e he
    cases he

theorem admInv_init : AdmInv initRunState := by
  intro id h
  simp [adminOpenCount, initRunState] at h

theorem count_keys_le_one {α β : Type} [DecidableEq α] (l : List (α × β)) (k : α)
    (h : (l.map Prod.fst).Nodup) :
    l.countP (fun p => decide (p.1 = k)) ≤ 1 := by
  induction l with
  | nil => simp
  | cons p rest ih =>
    rw [List.countP_cons]
    simp only [List.map_cons, List.nodup_cons] at h
    by_cases hp : p.1 = k
    · have hzero : rest.countP (fun q => decide (q.1 = k)) = 0 := by
        rw [List.countP_eq_zero]
        intro q hq
        simp only [decide_eq_true_eq]
        intro hqk
        apply h.1
        rw [hp, ← hqk]
        exact List.mem_map_of_mem Prod.fst hq
      rw [hzero]
      simp [hp]
    · have := ih h.2
      simp only [hp, decide_eq_true_eq, if_neg hp]
      simpa using this

theorem targetOpensDb_eq_conns (tr : List ConnEvent) (db : Name) :
    targetOpensDb tr db = (targetOpens tr).countP (fun p => decide (p.1 = db)) := by
  induction tr with
  | nil => rfl
  | cons e rest ih =>
    have he : e :: rest = [e] ++ rest := rfl
    rw [he, targetOpensDb_append, targetOpens_append, List.countP_append, ih]
    congr 1
    cases e with
    | openedAdmin i => rfl
    | openedTarget d i =>
      rw [targetOpensDb_singleT, targetOpens_singleT, List.countP_cons]
      simp
    | closedConn i => rfl

theorem closeCount_closes (l : List (Name × Nat)) (id : Nat) :
    closeCount (l.map (fun kv => ConnEvent.closedConn kv.2)) id =
      l.countP (fun kv => decide (kv.2 = id)) := by
  induction l with
  | nil => rfl
  | cons p rest ih =>
    simp only [List.map_cons]
    have hsplit : ConnEvent.closedConn p.2 ::
        rest.map (fun kv => ConnEvent.closedConn kv.2) =
        [ConnEvent.closedConn p.2] ++
        rest.map (fun kv => ConnEvent.closedConn kv.2) := rfl
    rw [hsplit, closeCount_append, closeCount_singleC, ih, List.countP_cons]
    by_cases hp : p.2 = id <;> simp [hp] <;> omega

theorem countP_snd_eq_one {α : Type} (l : List (α × Nat)) (id : Nat)
    (hmem : id ∈ l.map Prod.snd) (hnd : (l.map Prod.snd).Nodup) :
    l.countP (fun kv => decide (kv.2 = id)) = 1 := by
  induction l with
  | nil => cases hmem
  | cons p rest ih =>
    simp only [List.map_cons, List.nodup_cons] at hnd
    rw [List.countP_cons]
    rcases List.mem_cons.mp hmem with hcase | hcase
    · have h0 : rest.countP (fun kv => decide (kv.2 = id)) = 0 := by
        rw [List.countP_eq_zero]
        intro q hq
        simp only [decide_eq_true_eq]
        intro hq2
        apply hnd.1
        rw [← hcase, ← hq2]
        exact List.mem_map_of_mem Prod.snd hq
      rw [h0]
      simp [hcase.symm]
    · have h1 := ih hcase hnd.2
      have hne : ¬ (p.2 = id) := fun hpe => hnd.1 (hpe ▸ hcase)
      simp [h1, hne]

theorem countP_snd_eq_zero {α : Type} (l : List (α × Nat)) (id : Nat)
    (hmem : id ∉ l.map Prod.snd) :
    l.countP (fun kv => decide (kv.2 = id)) = 0 := by
  rw [List.countP_eq_zero]
  intro q hq
  simp only [decide_eq_true_eq]
  intro hq2
  exact hmem (hq2 ▸ List.mem_map_of_mem Prod.snd hq)

theorem targetOpenCount_pos_of_mem (tr : List ConnEvent) (p : Name × Nat)
    (hp : p ∈ targetOpens tr) : 1 ≤ targetOpenCount tr p.2 := by
  obtain ⟨e, he, hfe⟩ := List.mem_filterMap.mp hp
  unfold targetOpenCount
  refine List.countP_pos.mpr ⟨e, he, ?_⟩
  cases e with
  | openedAdmin i => cases hfe
  | openedTarget d i =>
    have : p = (d, i) := by simpa using hfe.symm
    rw [this]
    simp
  | closedConn i => cases hfe

theorem adminOpenCount_pos_of_mem (tr : List ConnEvent) (id : Nat)
    (hmem : ConnEvent.openedAdmin id ∈ tr) : 1 ≤ adminOpenCount tr id := by
  unfold adminOpenCount
  exact List.countP_pos.mpr ⟨ConnEvent.openedAdmin id, hmem, by simp⟩

theorem stepGroup_halted_none (idx : Nat) (db : Name) (s : RunState)
    (hh : s.halted = false) : (stepGroup none idx db s).halted = false := by
  unfold stepGroup
  cases hl : lookupA db s.conns <;> simp [hh, hl]

theorem stepGroup_self_some (idx : Nat) (db : Name) (s : RunState)
    (hh : s.halted = false) :
    ∃ v, lookupA db (stepGroup none idx db s).conns = some v := by
  cases hl : lookupA db s.conns with
  | some c =>
    refine ⟨c, ?_⟩
    have hconns : (stepGroup none idx db s).conns = s.conns := by
      unfold stepGroup
      simp [hh, hl]
    rw [hconns, hl]
  | none =>
    refine ⟨s.nextId + 1, ?_⟩
    have hconns : (stepGroup none idx db s).conns =
        s.conns ++ [(db, s.nextId + 1)] := by
      unfold stepGroup
      simp [hh, hl]
    rw [hconns, lookupA_append_of_none _ _ _ hl]
    simp [lookupA]

theorem stepGroup_conns_mono (fail : Option (Nat × FailSite)) (idx : Nat)
    (db' : Name) (s : RunState) (k : Name) (v : Nat)
    (h : lookupA k s.conns = some v) :
    lookupA k (stepGroup fail idx db' s).conns = some v := by
  unfold stepGroup
  by_cases hh : s.halted = true
  · simp [hh, h]
  cases hl : lookupA db' s.conns with
  | some c =>
    by_cases hb : fail = some (idx, FailSite.body) <;> simp [hh, hl, hb, h]
  | none =>
    by_cases ha : fail = some (idx, FailSite.connectAdmin)
    · simp [hh, hl, ha, h]
    by_cases hc : fail = some (idx, FailSite.createDb)
    · simp [hh, hl, ha, hc, h]
    by_cases ht : fail = some (idx, FailSite.connectTarget)
    · simp [hh, hl, ha, hc, ht, h]
    · simp only [hh, hl, ha, hc, ht, if_false, Bool.false_eq_true]
      exact lookupA_append_left k s.conns _ v h

theorem runGroupsConn_conns_mono (fail : Option (Nat × FailSite)) :
    ∀ (keys : List Name) (idx : Nat) (s : RunState) (k : Name) (v : Nat),
      lookupA k s.conns = some v →
      lookupA k (runGroupsConn fail idx s keys).conns = some v := by
  intro keys
  induction keys with
  | nil => intro idx s k v h; exact h
  | cons g rest ih =>
    intro idx s k v h
    exact ih (idx + 1) _ k v (stepGroup_conns_mono fail idx g s k v h)

theorem runGroupsConn_mem_keys :
    ∀ (keys : List Name) (idx : Nat) (s : RunState), s.halted = false →
      ∀ db ∈ keys, ∃ v, lookupA db (runGroupsConn none idx s keys).conns = some v := by
  intro keys
  induction keys with
  | nil => intro idx s _ db hdb; cases hdb
  | cons k rest ih =>
    intro idx s hh db hdb
    rcases List.mem_cons.mp hdb with hcase | hcase
    · subst hcase
      obtain ⟨v, hv⟩ := stepGroup_self_some idx db s hh
      exact ⟨v, runGroupsConn_conns_mono none rest (idx + 1) _ db v hv⟩
    · exact ih (idx + 1) (stepGroup none idx k s)
        (stepGroup_halted_none idx k s hh) db hcase

theorem targetOpensDb_closes (l : List (Name × Nat)) (db : Name) :
    targetOpensDb (l.map (fun kv => ConnEvent.closedConn kv.2)) db = 0 := by
  unfold targetOpensDb
  rw [List.countP_eq_zero]
  intro e he
  obtain ⟨kv, _, hkv⟩ := List.mem_map.mp he
  rw [← hkv]
  simp

/-- C5 (amended): throughout a run, at most one managed connection is
ever opened per target database name (created on the first group
referencing that database — with no failure, exactly one per referenced
database — and reused by every later group for that database), and
every managed connection is closed exactly once when the run ends, even
on early error termination; every connection opened during the run,
administrative ones included, is closed exactly once provided no
failure occurs inside `create_database_if_not_exists` — a failure
there leaves the just-opened administrative connection unclosed,
because lines 116-117 of `updated_code.py` have no `try/finally`. -/
theorem claim_C5 (st : UpdatedStructure) (fail : Option (Nat × FailSite)) :
    (∀ db : Name, targetOpensDb (process_database_structure_conns st fail) db ≤ 1) ∧
    (∀ (db : Name) (id : Nat),
      ConnEvent.openedTarget db id ∈ process_database_structure_conns st fail →
      closeCount (process_database_structure_conns st fail) id = 1) ∧
    ((∀ i : Nat, fail ≠ some (i, FailSite.createDb)) →
      ∀ e ∈ process_database_structure_conns st fail,
        (∀ i : Nat, e ≠ ConnEvent.closedConn i) →
        closeCount (process_database_structure_conns st fail) (eventId e) = 1) ∧
    (fail = none →
      ∀ db ∈ runDbKeys st,
        targetOpensDb (process_database_structure_conns st fail) db = 1) := by
  have hinv := connInv_run fail (runDbKeys st) 0 initRunState connInv_init
  set sfin := runGroupsConn fail 0 initRunState (runDbKeys st) with hsfin
  obtain ⟨h1, h2, h3, h4, h5, h6⟩ := hinv
  have htr : process_database_structure_conns st fail =
      sfin.trace ++ sfin.conns.map (fun kv => ConnEvent.closedConn kv.2) := rfl
  refine ⟨?_, ?_, ?_, ?_⟩
  · intro db
    rw [htr, targetOpensDb_append, targetOpensDb_closes,
      targetOpensDb_eq_conns, h1]
    have := count_keys_le_one sfin.conns db h2
    omega
  · intro db id hmem
    rw [htr] at hmem ⊢
    have hmem' : ConnEvent.openedTarget db id ∈ sfin.trace := by
      rcases List.mem_append.mp hmem with hcase | hcase
      · exact hcase
      · obtain ⟨kv, _, hkv⟩ := List.mem_map.mp hcase
        cases hkv
    have hpair : (db, id) ∈ sfin.conns := by
      rw [← h1]
      exact List.mem_filterMap.mpr ⟨_, hmem', rfl⟩
    have h40 : closeCount sfin.trace id = 0 := h4 (db, id) hpair
    rw [closeCount_append, h40, closeCount_closes,
      countP_snd_eq_one sfin.conns id
        (List.mem_map.mpr ⟨(db, id), hpair, rfl⟩) h3]
  · intro hf e hmem hnotclose
    have hadm := admInv_run fail hf (runDbKeys st) 0 initRunState
      connInv_init admInv_init
    rw [htr] at hmem ⊢
    have hmem' : e ∈ sfin.trace := by
      rcases List.mem_append.mp hmem with hcase | hcase
      · exact hcase
      · obtain ⟨kv, _, hkv⟩ := List.mem_map.mp hcase
        exact absurd hkv.symm (hnotclose kv.2)
    cases e with
    | closedConn i => exact absurd rfl (hnotclose i)
    | openedTarget d i =>
      show closeCount (sfin.trace ++
        sfin.conns.map (fun kv => ConnEvent.closedConn kv.2)) i = 1
      have hpair : (d, i) ∈ sfin.conns := by
        rw [← h1]
        exact List.mem_filterMap.mpr ⟨_, hmem', rfl⟩
      have h40 : closeCount sfin.trace i = 0 := h4 (d, i) hpair
      rw [closeCount_append, h40, closeCount_closes,
        countP_snd_eq_one sfin.conns i
          (List.mem_map.mpr ⟨(d, i), hpair, rfl⟩) h3]
    | openedAdmin i =>
      show closeCount (sfin.trace ++
        sfin.conns.map (fun kv => ConnEvent.closedConn kv.2)) i = 1
      have hpos := adminOpenCount_pos_of_mem sfin.trace i hmem'
      have hclose1 : closeCount sfin.trace i = 1 := hadm i hpos
      have hnotin : i ∉ sfin.conns.map Prod.snd := by
        intro hin
        obtain ⟨p, hp, hpe⟩ := List.mem_map.mp hin
        have hpt : p ∈ targetOpens sfin.trace := by
          rw [h1]
          exact hp
        have htp := targetOpenCount_pos_of_mem sfin.trace p hpt
        rw [hpe] at htp
        have := h5 i
        omega
      rw [closeCount_append, hclose1, closeCount_closes,
        countP_snd_eq_zero sfin.conns i hnotin]
  · intro hfn db hdb
    obtain ⟨v, hv0⟩ := runGroupsConn_mem_keys (runDbKeys st) 0 initRunState
      rfl db hdb
    have hv : lookupA db sfin.conns = some v := by
      rw [hsfin, hfn]
      exact hv0
    rw [htr, targetOpensDb_append, targetOpensDb_closes,
      targetOpensDb_eq_conns, h1]
    have hle := count_keys_le_one sfin.conns db h2
    have hmemk : db ∈ sfin.conns.map Prod.fst := by
      by_contra hnm
      rw [← lookupA_none_iff] at hnm
      rw [hnm] at hv
      cases hv
    have hpos : 1 ≤ sfin.conns.countP (fun p => decide (p.1 = db)) := by
      obtain ⟨p, hp, hpe⟩ := List.mem_map.mp hmemk
      exact List.countP_pos.mpr ⟨p, hp, by simp [hpe]⟩
    omega

/-- Counterexample for C5 as stated: when `create_database_if_not_exists`
raises for the first group, the administrative connection opened just
before is never closed — the whole run trace is a single open event with
no matching close. -/
theorem claim_C5_counterexample :
    allClosedOnce
      (process_database_structure_conns
        ⟨[(("d1".data, "s".data, "t".data), ["x/d1/s/t/a.csv".data])], []⟩
        (some (0, FailSite.createDb))) = false ∧
    process_database_structure_conns
      ⟨[(("d1".data, "s".data, "t".data), ["x/d1/s/t/a.csv".data])], []⟩
      (some (0, FailSite.createDb)) = [ConnEvent.openedAdmin 0] := by
  exact ⟨by decide, by decide⟩

/-- Witness for C5 on a failure-free run over two csv groups sharing a
database plus one image group: one target connection for the shared
database, closed exactly once. -/
theorem claim_C5_witness :
    targetOpensDb
      (process_database_structure_conns
        ⟨[(("d1".data, "s".data, "t".data), ["x/d1/s/t/a.csv".data]),
          (("d1".data, "s".data, "u".data), ["x/d1/s/u/b.csv".data])],
         [(("d2".data, "s".data, "t".data), [("c.png".data, "url".data)])]⟩
        none) "d1".data = 1 ∧
    closeCount
      (process_database_structure_conns
        ⟨[(("d1".data, "s".data, "t".data), ["x/d1/s/t/a.csv".data]),
          (("d1".data, "s".data, "u".data), ["x/d1/s/u/b.csv".data])],
         [(("d2".data, "s".data, "t".data), [("c.png".data, "url".data)])]⟩
        none) 1 = 1 := by
  constructor
  · exact (claim_C5
      ⟨[(("d1".data, "s".data, "t".data), ["x/d1/s/t/a.csv".data]),
        (("d1".data, "s".data, "u".data), ["x/d1/s/u/b.csv".data])],
       [(("d2".data, "s".data, "t".data), [("c.png".data, "url".data)])]⟩
      none).2.2.2 rfl "d1".data (by decide)
  · exact (claim_C5
      ⟨[(("d1".data, "s".data, "t".data), ["x/d1/s/t/a.csv".data]),
        (("d1".data, "s".data, "u".data), ["x/d1/s/u/b.csv".data])],
       [(("d2".data, "s".data, "t".data), [("c.png".data, "url".data)])]⟩
      none).2.1 "d1".data 1 (by decide)

/-- Witness for C10 at a concrete state: empty database state, one
single-column integer dataframe. -/
theorem claim_C10_witness :
    lookupA ("s".data, "t".data) (DBState.mk [] []).tables = none ∧
    lookupA ("s".data, "t".data)
      ((tabularGroupLoad ⟨[], []⟩ ⟨["c".data], [[ "1".data ]]⟩
        "t".data "s".data true).1).tables =
      some ⟨[("c".data, ColumnType.integer)], false, []⟩ := by
  constructor
  · rfl
  · exact (claim_C10 ⟨[], []⟩ ⟨["c".data], [[ "1".data ]]⟩
      "t".data "s".data).2.2.2 rfl

end GsPg
